import Mathlib

/-! # Calendarinho: the inline-edit session manager

A model of `static/js/inline-edit.js` (class `InlineEditor`).  JavaScript values are a
small inductive type, exceptions are `Except JSError`, the editor object and the part of
the page it touches are an explicit `State`, and every answer of the network is an
argument of the operation that awaits it.  What the browser computes and the script only
calls (date parsing and printing, the HTML parser behind `innerHTML`, the sanitising of
input values) is collected in the structure `Browser`.

Strings are Lean strings: sequences of Unicode scalar values.  Elements and editor forms
are objects with identity in the script; here they are numbers into two stores.
-/

namespace Calendarinho

/-! ## JavaScript values -/

/-- A JavaScript number, as far as the script can tell numbers apart: `NaN`, the two
zeros, and every other number, which carries the text `Number.prototype.toString`
prints for it. -/
inductive JSNumber where
  | nan
  | zero (negative : Bool)
  | other (text : String)
deriving DecidableEq, Repr

/-- The values the script handles: `undefined` and what `JSON.parse` can produce.  An
object is the list of its own properties. -/
inductive JSValue where
  | undefined
  | null
  | bool (b : Bool)
  | number (n : JSNumber)
  | string (s : String)
  | array (items : List JSValue)
  | object (props : List (String × JSValue))

/-- A thrown `Error` object: its `name` and its `message`. -/
structure JSError where
  name : String
  message : String
deriving DecidableEq, Repr

deriving instance DecidableEq for Except

/-- A `TypeError` raised by the engine (the message texts follow V8). -/
def typeError (message : String) : JSError := ⟨"TypeError", message⟩

/-- The value of `new Error(message)`. -/
def newError (message : String) : JSError := ⟨"Error", message⟩

/-- ToBoolean: what `!value`, `a || b`, `a && b` and `if (value)` look at. -/
def JSValue.truthy : JSValue → Bool
  | .undefined => false
  | .null => false
  | .bool b => b
  | .number .nan => false
  | .number (.zero _) => false
  | .number (.other _) => true
  | .string s => !s.isEmpty
  | .array _ => true
  | .object _ => true

/-- The comparison `value === 0`: true of the two zeros only. -/
def JSValue.isZero : JSValue → Bool
  | .number (.zero _) => true
  | _ => false

/-- The comparison `value === s` against a string. -/
def JSValue.strictEqString : JSValue → String → Bool
  | .string t, s => t == s
  | _, _ => false

/-- The operator `a || b`. -/
def JSValue.or (a b : JSValue) : JSValue := if a.truthy then a else b

/-- Reading the property `key` of a value (`v.key`), for the keys of the response
envelope, none of which is inherited from a prototype: `undefined` and `null` throw, an
object yields its own property or `undefined`, every other value yields `undefined`. -/
def JSValue.get (v : JSValue) (key : String) : Except JSError JSValue :=
  match v with
  | .undefined =>
      .error (typeError ("Cannot read properties of undefined (reading '" ++ key ++ "')"))
  | .null =>
      .error (typeError ("Cannot read properties of null (reading '" ++ key ++ "')"))
  | .object props => .ok ((props.lookup key).getD .undefined)
  | _ => .ok .undefined

mutual
/-- ToString, the conversion behind template literals, `String(v)`, `new Error(v)` and
every assignment to a DOM string.  An object whose own `toString` property shadows the
inherited method cannot be converted (a parsed value is never callable). -/
def JSValue.toStr : JSValue → Except JSError String
  | .undefined => .ok "undefined"
  | .null => .ok "null"
  | .bool b => .ok (if b then "true" else "false")
  | .number .nan => .ok "NaN"
  | .number (.zero _) => .ok "0"
  | .number (.other t) => .ok t
  | .string s => .ok s
  | .array items => JSValue.joinStr items
  | .object props =>
      if props.any (fun p => p.1 == "toString") then
        .error (typeError "Cannot convert object to primitive value")
      else .ok "[object Object]"
termination_by structural v => v
/-- The text `Array.prototype.join` builds: the elements converted and separated by
commas, `undefined` and `null` counting as empty. -/
def JSValue.joinStr : List JSValue → Except JSError String
  | [] => .ok ""
  | x :: rest => do
      let a ← (match x with
        | .undefined => .ok ""
        | .null => .ok ""
        | v => JSValue.toStr v)
      match rest with
      | [] => pure a
      | _ :: _ => do
          let b ← JSValue.joinStr rest
          pure (a ++ "," ++ b)
termination_by structural l => l
end

/-- The method call `value.toString()`: there is no such method on `undefined` and
`null`. -/
def JSValue.callToString : JSValue → Except JSError String
  | .undefined =>
      .error (typeError "Cannot read properties of undefined (reading 'toString')")
  | .null => .error (typeError "Cannot read properties of null (reading 'toString')")
  | .object props =>
      if props.any (fun p => p.1 == "toString") then
        .error (typeError "value.toString is not a function")
      else .ok "[object Object]"
  | v => v.toStr

/-- Running a callback that may throw over a list, in order (`map`, `forEach`): the first
exception ends the run. -/
def mapAll {α β : Type} (f : α → Except JSError β) : List α → Except JSError (List β)
  | [] => .ok []
  | x :: xs =>
    match f x with
    | .error e => .error e
    | .ok y =>
      match mapAll f xs with
      | .error e => .error e
      | .ok ys => .ok (y :: ys)

/-- A `dataset` entry or other optional string in a template literal: `undefined` prints
as the word. -/
def templateStr (s : Option String) : String := s.getD "undefined"

/-- An optional string as a value. -/
def optValue : Option String → JSValue
  | none => .undefined
  | some s => .string s

/-! ## Strings -/

/-- Whether `pat` occurs in `text` (lists of characters). -/
def includesChars (pat : List Char) : List Char → Bool
  | [] => pat.isEmpty
  | c :: cs => pat.isPrefixOf (c :: cs) || includesChars pat cs

/-- The method `text.includes(pat)`. -/
def includes (text pat : String) : Bool := includesChars pat.data text.data

/-! ## The browser -/

/-- What the script asks of the browser and does not compute itself. -/
structure Browser where
  /-- The time value of `new Date(text)`; `none` for an invalid date. -/
  parseDate : String → Option Int
  /-- The time value of `new Date(n)` for a number other than zero and `NaN`, given by
  its text; `none` for an invalid date. -/
  timeClip : String → Option Int
  /-- The method `toLocaleDateString()` of a valid date. -/
  toLocaleDateString : Int → String
  /-- The method `toISOString()` of a valid date. -/
  toISOString : Int → String
  /-- The text content of the nodes that assigning `html` to `innerHTML` creates. -/
  textOfMarkup : String → String
  /-- What `innerHTML` reads after `html` was assigned to it. -/
  serializeMarkup : String → String
  /-- The value an `input` or `textarea` reports after `text` was assigned to its
  `value`: the kind is `textarea`, `date` or `text`. -/
  sanitize : String → String → String

/-- The expression `new Date(value)` followed by `isNaN(date.getTime())`: the time value, or
`none` for an invalid date.  An object is converted to a primitive first. -/
def newDate (br : Browser) : JSValue → Except JSError (Option Int)
  | .undefined => .ok none
  | .null => .ok (some 0)
  | .bool b => .ok (some (if b then 1 else 0))
  | .number .nan => .ok none
  | .number (.zero _) => .ok (some 0)
  | .number (.other t) => .ok (br.timeClip t)
  | .string s => .ok (br.parseDate s)
  | v => do
      let s ← v.toStr
      pure (br.parseDate s)

/-! ## Display formatting (`escapeHtml`, `formatDisplayValue`, `formatDateForInput`) -/

/-- How the HTML serialisation of a text node writes one character. -/
def escapeChar (c : Char) : List Char :=
  if c = '&' then "&amp;".data
  else if c = '\u00a0' then "&nbsp;".data
  else if c = '<' then "&lt;".data
  else if c = '>' then "&gt;".data
  else [c]

/-- The method `escapeHtml(text)`: `text` becomes the text content of a fresh `div` and the
`innerHTML` of that `div` is read back, which is the serialisation of one text node. -/
def escapeHtml (text : String) : String := ⟨text.data.flatMap escapeChar⟩

/-- The placeholder shown for a missing value. -/
def notSet : String := "<em>Not set</em>"

/-- The method `formatDisplayValue(value, fieldName)`.  `fieldName` is a `dataset` entry:
a string, or `undefined` (`none`), on which `includes` cannot be called. -/
def formatDisplayValue (br : Browser) (value : JSValue) (fieldName : Option String) :
    Except JSError String :=
  if !value.truthy && !value.isZero then .ok notSet
  else
    match fieldName with
    | none => .error (typeError "Cannot read properties of undefined (reading 'includes')")
    | some f =>
      if includes f "date" then do
        match (← newDate br value) with
        | some t => pure (br.toLocaleDateString t)
        | none => do
            let s ← value.callToString
            pure (escapeHtml s)
      else do
        let s ← value.callToString
        pure (escapeHtml s)

/-- The method `formatDateForInput(dateString)`. -/
def formatDateForInput (br : Browser) (dateString : String) : String :=
  if dateString.isEmpty then ""
  else
    match br.parseDate dateString with
    | none => dateString
    | some t => ⟨(br.toISOString t).data.takeWhile (fun c => c != 'T')⟩

/-! ## The editor object and the page -/

/-- An element of the page, by identity. -/
abbrev ElemId := Nat

/-- An editor form built by `createEditor`, by identity. -/
abbrev FormId := Nat

/-- An entry of an option list: `{ value, label, name }`, `name` being `undefined` in the
fixed lists. -/
structure OptionEntry where
  value : JSValue
  label : JSValue
  name : JSValue

/-- An `option` element of a `select`: its value, its text and the `selected` flag the
script gave it. -/
structure SelectOption where
  value : String
  label : String
  selected : Bool
deriving DecidableEq, Repr

/-- The configuration `{ modelType, modelId, fieldName, currentValue }` captured by
`startEditing`; the first three are `dataset` entries and may be `undefined`. -/
structure Config where
  modelType : Option String
  modelId : Option String
  fieldName : Option String
  currentValue : String
deriving DecidableEq, Repr

/-- The form `createEditor` builds: `_config`, `_element`, the input (its kind, its
options when it is a `select`, whether it is disabled, its current value) and the submit
button (label and `disabled`). -/
structure EditorForm where
  config : Config
  element : ElemId
  kind : String
  options : List SelectOption
  inputDisabled : Bool
  inputValue : String
  saveText : String
  saveDisabled : Bool
deriving DecidableEq, Repr

/-- The children of an element: as the page was delivered (with what `innerHTML` and
`textContent` read), as the last assignment to `innerHTML` left them, or emptied and
holding an editor form. -/
inductive Content where
  | rendered (innerHTML textContent : String)
  | markup (html : String)
  | editor (form : FormId)
deriving DecidableEq, Repr

/-- An inline-editable element: its `dataset` (`data-model`, `data-id`, `data-field`,
`data-value`) and its content. -/
structure Element where
  model : Option String
  id : Option String
  field : Option String
  value : Option String
  content : Content
deriving DecidableEq, Repr

/-- A call of `fetch`: method, URL, headers and the object given to `JSON.stringify` for
the body (without its `undefined` properties, which are not written). -/
structure Request where
  method : String
  url : String
  headers : List (String × String)
  body : Option (List (String × JSValue))

/-- An alert appended to the notification container by `showNotification`. -/
structure Notification where
  message : String
  type : String
  duration : Nat
deriving DecidableEq, Repr

/-- A `CustomEvent` dispatched on an element. -/
structure Event where
  target : ElemId
  type : String
  detail : List (String × JSValue)

/-- A response of the server: status line and what `response.json()` yields, a parsed
value or the error it rejects with. -/
structure Response where
  status : Nat
  statusText : String
  json : Except JSError JSValue

/-- The property `response.ok`: a status from 200 to 299. -/
def Response.ok (r : Response) : Bool := decide (200 ≤ r.status) && decide (r.status ≤ 299)

/-- How one call of `fetch` ends: the promise rejects, or a response arrives. -/
inductive FetchOutcome where
  | failed (error : JSError)
  | response (r : Response)

/-- The `InlineEditor` object together with the part of the page and of the world it acts
on.  `activeEditors` is the `Map` in insertion order; `requests`, `notifications` and
`events` record what was sent, shown and dispatched, oldest first. -/
structure State where
  baseUrl : String
  csrfToken : Option String
  showNotifications : Bool
  activeEditors : List (ElemId × FormId)
  servicesCache : Option (List OptionEntry)
  elements : ElemId → Element
  forms : FormId → EditorForm
  nextForm : FormId
  hasNotificationContainer : Bool
  requests : List Request
  notifications : List Notification
  events : List Event

/-- How a method call ends: the state it leaves and the exception it throws (for an
`async` method: rejects with), if any. -/
structure Result where
  state : State
  thrown : Option JSError

/-! ### The `Map` operations on `activeEditors` -/

/-- The method `Map.prototype.has`. -/
def mapHas (m : List (ElemId × FormId)) (k : ElemId) : Bool := m.any (fun p => p.1 == k)

/-- The method `Map.prototype.get`. -/
def mapGet (m : List (ElemId × FormId)) (k : ElemId) : Option FormId := m.lookup k

/-- The method `Map.prototype.set`: a present key keeps its place, a new one goes last. -/
def mapSet (m : List (ElemId × FormId)) (k : ElemId) (v : FormId) : List (ElemId × FormId) :=
  if mapHas m k then m.map (fun p => if p.1 == k then (k, v) else p) else m ++ [(k, v)]

/-- The method `Map.prototype.delete`. -/
def mapDelete (m : List (ElemId × FormId)) (k : ElemId) : List (ElemId × FormId) :=
  m.filter (fun p => !(p.1 == k))

/-! ### State updates -/

/-- Replace one element of the page. -/
def State.setElement (st : State) (el : ElemId) (e : Element) : State :=
  { st with elements := fun i => if i = el then e else st.elements i }

/-- Replace one form. -/
def State.setForm (st : State) (form : FormId) (f : EditorForm) : State :=
  { st with forms := fun i => if i = form then f else st.forms i }

/-- The assignment `element.innerHTML = html`. -/
def State.setInnerHTML (st : State) (el : ElemId) (html : String) : State :=
  st.setElement el { st.elements el with content := .markup html }

/-- The call `element.dispatchEvent(new CustomEvent(type, { detail }))`. -/
def State.dispatch (st : State) (el : ElemId) (type : String)
    (detail : List (String × JSValue)) : State :=
  { st with events := st.events ++ [⟨el, type, detail⟩] }

/-- The headers sent with every request of the editor. -/
def State.xhrHeaders (st : State) : List (String × String) :=
  [("X-CSRFToken", st.csrfToken.getD "null"), ("X-Requested-With", "XMLHttpRequest")]

/-- The method `showNotification(message, type)` with the default duration: nothing
happens without the container. -/
def showNotification (st : State) (message type : String) : State :=
  if st.hasNotificationContainer then
    { st with notifications := st.notifications ++ [⟨message, type, 5000⟩] }
  else st

/-! ## The service options (`loadServices`, `setFallbackServices`, `getServiceOptions`) -/

/-- A fixed option entry `{ value: n, label: text, name: text }`. -/
def serviceEntry (n : String) (text : String) : OptionEntry :=
  ⟨.number (.other n), .string text, .string text⟩

/-- The list `setFallbackServices` installs. -/
def fallbackServices : List OptionEntry :=
  [ serviceEntry "1" "Penetration Testing",
    serviceEntry "2" "Vulnerability Assessment",
    serviceEntry "3" "Code Review",
    serviceEntry "4" "Security Audit",
    serviceEntry "5" "Red Team Assessment" ]

/-- The method `setFallbackServices()`. -/
def setFallbackServices (st : State) : State :=
  { st with servicesCache := some fallbackServices }

/-- The request `fetch(baseUrl + "/services/", { method: 'GET', headers })`. -/
def servicesRequest (st : State) : Request :=
  ⟨"GET", st.baseUrl ++ "/services/", st.xhrHeaders, none⟩

/-- The callback of `data.data.services.map`: one service becomes
`{ value: service.id, label: service.display_name || service.name, name: service.name }`. -/
def mapService (service : JSValue) : Except JSError OptionEntry :=
  match service.get "id" with
  | .error e => .error e
  | .ok id =>
    match service.get "display_name" with
    | .error e => .error e
    | .ok display =>
      match service.get "name" with
      | .error e => .error e
      | .ok name => .ok ⟨id, display.or name, name⟩

/-- The call `services.map(callback)`: only an array has the method. -/
def mapServices : JSValue → Except JSError (List OptionEntry)
  | .array items => mapAll mapService items
  | .undefined => .error (typeError "Cannot read properties of undefined (reading 'map')")
  | .null => .error (typeError "Cannot read properties of null (reading 'map')")
  | _ => .error (typeError "data.data.services.map is not a function")

/-- The test `data.success && data.data && data.data.services` of `loadServices` and the
branch it selects: `some cache` is the mapped list to install, `none` the `else` branch. -/
def readServices (data : JSValue) : Except JSError (Option (List OptionEntry)) :=
  match data.get "success" with
  | .error e => .error e
  | .ok success =>
    if !success.truthy then .ok none
    else
      match data.get "data" with
      | .error e => .error e
      | .ok inner =>
        if !inner.truthy then .ok none
        else
          match inner.get "services" with
          | .error e => .error e
          | .ok services =>
            if !services.truthy then .ok none
            else
              match mapServices services with
              | .error e => .error e
              | .ok cache => .ok (some cache)

/-- The method `loadServices()`, given how its `fetch` ends.  Every exception of the `try`
block is caught and answered with the fallback list. -/
def loadServices (st : State) (out : FetchOutcome) : State :=
  let st1 := { st with requests := st.requests ++ [servicesRequest st] }
  match out with
  | .failed _ => setFallbackServices st1
  | .response r =>
    if r.ok then
      match r.json with
      | .error _ => setFallbackServices st1
      | .ok data =>
        match readServices data with
        | .error _ => setFallbackServices st1
        | .ok (some cache) => { st1 with servicesCache := some cache }
        | .ok none => setFallbackServices st1
    else setFallbackServices st1

/-- The method `getServiceOptions()`. -/
def getServiceOptions (st : State) : List OptionEntry :=
  match st.servicesCache with
  | some (c :: cs) => c :: cs
  | _ =>
    [ serviceEntry "1" "Penetration Testing",
      serviceEntry "2" "Vulnerability Assessment",
      serviceEntry "3" "Code Review",
      serviceEntry "4" "Security Audit" ]

/-! ## Field types (`getInputType`) -/

/-- A descriptor object of `getInputType`: `type`, `options` when present, and whether
`loadDynamically` is set. -/
structure Descriptor where
  type : String
  options : Option (List OptionEntry)
  loadDynamically : Bool

/-- What `getInputType` returns: a descriptor, or, for a field named like a member of
`Object.prototype`, that inherited member of the table. -/
inductive InputType where
  | descriptor (d : Descriptor)
  | inherited (key : String)

/-- The property `inputType.type`; a member of `Object.prototype` has none. -/
def InputType.type : InputType → Option String
  | .descriptor d => some d.type
  | .inherited _ => none

/-- The property `inputType.options`; a member of `Object.prototype` has none. -/
def InputType.options : InputType → Option (List OptionEntry)
  | .descriptor d => d.options
  | .inherited _ => none

/-- Whether `inputType.loadDynamically` is truthy. -/
def InputType.loadDynamically : InputType → Bool
  | .descriptor d => d.loadDynamically
  | .inherited _ => false

/-- An entry `{ value: text, label: text }` of a fixed list. -/
def fixedEntry (text : String) : OptionEntry := ⟨.string text, .string text, .undefined⟩

/-- The table `fieldTypes`. -/
def fieldTypes : List (String × Descriptor) :=
  [ ("description", ⟨"textarea", none, false⟩),
    ("scope", ⟨"textarea", none, false⟩),
    ("body", ⟨"textarea", none, false⟩),
    ("start_date", ⟨"date", none, false⟩),
    ("end_date", ⟨"date", none, false⟩),
    ("severity", ⟨"select",
      some [fixedEntry "Critical", fixedEntry "High", fixedEntry "Medium", fixedEntry "Low"],
      false⟩),
    ("status", ⟨"select", some [fixedEntry "Open", fixedEntry "Fixed"], false⟩),
    ("report_type", ⟨"select",
      some [fixedEntry "Draft", fixedEntry "Final", fixedEntry "Verification"], false⟩),
    ("leave_type", ⟨"select",
      some [fixedEntry "Training", fixedEntry "Vacation", fixedEntry "Work from Home"],
      false⟩),
    ("service_type", ⟨"select", some [], true⟩) ]

/-- The property names every object literal inherits from `Object.prototype`. -/
def objectPrototypeKeys : List String :=
  [ "constructor", "__proto__", "hasOwnProperty", "isPrototypeOf", "propertyIsEnumerable",
    "toLocaleString", "toString", "valueOf", "__defineGetter__", "__defineSetter__",
    "__lookupGetter__", "__lookupSetter__" ]

/-- The method `getInputType(fieldName, modelType)`.  The lookup `fieldTypes[fieldName]`
converts an `undefined` field name to the key `"undefined"`. -/
def getInputType (st : State) (fieldName _modelType : Option String) : InputType :=
  if fieldName = some "service_type" then
    .descriptor ⟨"select", some (getServiceOptions st), false⟩
  else
    match fieldTypes.lookup (templateStr fieldName) with
    | some d => .descriptor d
    | none =>
      if objectPrototypeKeys.contains (templateStr fieldName) then
        .inherited (templateStr fieldName)
      else .descriptor ⟨"text", none, false⟩

/-! ## Building the editor (`createEditor`, `startEditing`) -/

/-- The assignment `node.textContent = value`: `undefined` and `null` empty the node. -/
def domText : JSValue → Except JSError String
  | .undefined => .ok ""
  | .null => .ok ""
  | v => v.toStr

/-- The body of the `forEach` callback of `createEditor`: the `option` element made for
one entry. -/
def buildOption (fieldName : Option String) (currentValue : String) (o : OptionEntry) :
    Except JSError SelectOption :=
  match o.value.toStr with
  | .error e => .error e
  | .ok value =>
    match domText o.label with
    | .error e => .error e
    | .ok label =>
      if fieldName = some "service_type" then
        if o.name.strictEqString currentValue then .ok ⟨value, label, true⟩
        else
          match o.value.callToString with
          | .error e => .error e
          | .ok text => .ok ⟨value, label, text == currentValue⟩
      else .ok ⟨value, label, o.value.strictEqString currentValue⟩

/-- The property `select.value` once the options are appended: the value of the last
option appended with `selected` set, else that of the first option, else empty. -/
def selectValue (options : List SelectOption) : String :=
  match (options.filter (fun o => o.selected)).getLast? with
  | some o => o.value
  | none =>
    match options.head? with
    | some o => o.value
    | none => ""

/-- The new form takes the next free identity in the store. -/
def storeForm (st : State) (f : EditorForm) : State × FormId :=
  ({ st.setForm st.nextForm f with nextForm := st.nextForm + 1 }, st.nextForm)

/-- The method `createEditor(element, config)`: the state with the new form stored, and
the form.  In the branch that calls `loadServiceOptions` the model runs that method up
to its `fetch`. -/
def createEditor (br : Browser) (st : State) (element : ElemId) (config : Config) :
    Except JSError (State × FormId) :=
  let inputType := getInputType st config.fieldName config.modelType
  if inputType.type = some "textarea" then
    .ok (storeForm st ⟨config, element, "textarea", [], false,
      br.sanitize "textarea" config.currentValue, "Save", false⟩)
  else if inputType.type = some "select" then
    if inputType.loadDynamically && decide (config.fieldName = some "service_type") then
      .ok (storeForm { st with requests := st.requests ++ [servicesRequest st] }
        ⟨config, element, "select", [⟨"", "Loading services...", false⟩], true, "",
          "Save", false⟩)
    else
      match inputType.options with
      | none => .error (typeError "Cannot read properties of undefined (reading 'forEach')")
      | some entries =>
        match mapAll (buildOption config.fieldName config.currentValue) entries with
        | .error e => .error e
        | .ok opts =>
          .ok (storeForm st ⟨config, element, "select", opts, false, selectValue opts,
            "Save", false⟩)
  else if inputType.type = some "date" then
    .ok (storeForm st ⟨config, element, "date", [], false,
      br.sanitize "date" (formatDateForInput br config.currentValue), "Save", false⟩)
  else
    .ok (storeForm st ⟨config, element, "text", [], false,
      br.sanitize "text" config.currentValue, "Save", false⟩)

/-- The test `element.innerHTML !== element.textContent`.  Under an editor the markup
ends with the closing tag of the form and the text with the label of the cancel button,
so the two differ. -/
def markupDiffers (br : Browser) (e : Element) : Bool :=
  match e.content with
  | .rendered html text => html != text
  | .markup html => br.serializeMarkup html != br.textOfMarkup html
  | .editor _ => true

/-- What `element.textContent` reads: under an editor, the option labels and the two
button labels. -/
def textContent (br : Browser) (st : State) (e : Element) : String :=
  match e.content with
  | .rendered _ text => text
  | .markup html => br.textOfMarkup html
  | .editor form =>
      String.join ((st.forms form).options.map (fun o => o.label)) ++
        (st.forms form).saveText ++ "Cancel"

/-- The value `startEditing` captures as `currentValue`:
`element.dataset.value || element.textContent`, replaced by the text content whenever the
markup of the element differs from its text. -/
def readCurrentValue (br : Browser) (st : State) (e : Element) : String :=
  let stored :=
    match e.value with
    | some v => if v.isEmpty then textContent br st e else v
    | none => textContent br st e
  if markupDiffers br e then textContent br st e else stored

/-- The method `startEditing(element)`; `services` is how the `fetch` of `loadServices`
ends, should the method get that far on a `service_type` field. -/
def startEditing (br : Browser) (st : State) (element : ElemId) (services : FetchOutcome) :
    Result :=
  let e := st.elements element
  let config : Config := ⟨e.model, e.id, e.field, readCurrentValue br st e⟩
  if mapHas st.activeEditors element then ⟨st, none⟩
  else
    let st1 := if e.field = some "service_type" then loadServices st services else st
    match createEditor br st1 element config with
    | .error err => ⟨st1, some err⟩
    | .ok (st2, editor) =>
      let st3 := { st2 with activeEditors := mapSet st2.activeEditors element editor }
      ⟨st3.setElement element { st3.elements element with content := .editor editor }, none⟩

/-! ## Ending an edit (`cancelEditing`, `cancelAllEditing`) -/

/-- The method `cancelEditing(element)`. -/
def cancelEditing (br : Browser) (st : State) (element : ElemId) : Result :=
  match mapGet st.activeEditors element with
  | none => ⟨st, none⟩
  | some editor =>
    let config := (st.forms editor).config
    match formatDisplayValue br (.string config.currentValue) config.fieldName with
    | .error err => ⟨st, some err⟩
    | .ok html =>
      let st1 := st.setInnerHTML element html
      ⟨{ st1 with activeEditors := mapDelete st1.activeEditors element }, none⟩

/-- The loop of `cancelAllEditing` over the keys still to visit; an exception ends it. -/
def cancelAllFrom (br : Browser) : List ElemId → State → Result
  | [], st => ⟨st, none⟩
  | element :: rest, st =>
    match cancelEditing br st element with
    | ⟨st1, none⟩ => cancelAllFrom br rest st1
    | ⟨st1, some err⟩ => ⟨st1, some err⟩

/-- The method `cancelAllEditing()`: the entries are visited in insertion order, and the
only change made on the way is the deletion of the entry being visited. -/
def cancelAllEditing (br : Browser) (st : State) : Result :=
  cancelAllFrom br (st.activeEditors.map Prod.fst) st

/-! ## Saving (`saveField`, `handleFormSubmission`) -/

/-- The object `{ field: fieldName, value: value }` as `JSON.stringify` writes it. -/
def saveBody (fieldName : Option String) (value : String) : List (String × JSValue) :=
  match fieldName with
  | some f => [("field", .string f), ("value", .string value)]
  | none => [("value", .string value)]

/-- The request of `saveField`. -/
def saveRequest (st : State) (modelType modelId fieldName : Option String) (value : String) :
    Request :=
  ⟨"PATCH",
   st.baseUrl ++ "/" ++ templateStr modelType ++ "/" ++ templateStr modelId ++ "/edit-field/",
   ("Content-Type", "application/json") :: st.xhrHeaders,
   some (saveBody fieldName value)⟩

/-- The method `saveField(modelType, modelId, fieldName, value)` for the arguments
`handleFormSubmission` passes (three `dataset` entries and the value of an input), given
how its `fetch` ends: the state with the request recorded, and the value the promise
resolves to or the error it rejects with. -/
def saveField (st : State) (modelType modelId fieldName : Option String) (value : String)
    (out : FetchOutcome) : State × Except JSError JSValue :=
  let st1 := { st with requests := st.requests ++ [saveRequest st modelType modelId fieldName value] }
  match out with
  | .failed err => (st1, .error err)
  | .response r =>
    if !r.ok then
      (st1, .error (newError ("HTTP " ++ toString r.status ++ ": " ++ r.statusText)))
    else (st1, r.json)

/-- The branch `if (result.success) { ... }` of `handleFormSubmission`, run on the element
and configuration of the form: the state it leaves, and the exception that interrupted it,
if any. -/
def applySaved (br : Browser) (st : State) (element : ElemId) (config : Config)
    (result : JSValue) : State × Option JSError :=
  match result.get "data" with
  | .error err => (st, some err)
  | .ok data =>
    match data.get "value" with
    | .error err => (st, some err)
    | .ok value =>
      match value.toStr with
      | .error err => (st, some err)
      | .ok stored =>
        let st1 := st.setElement element { st.elements element with value := some stored }
        match data.get "formatted_value" with
        | .error err => (st1, some err)
        | .ok formatted =>
          match formatDisplayValue br formatted config.fieldName with
          | .error err => (st1, some err)
          | .ok html =>
            let st2 := st1.setInnerHTML element html
            let st3 := { st2 with activeEditors := mapDelete st2.activeEditors element }
            let st4 :=
              if st3.showNotifications then
                showNotification st3 "Field updated successfully" "success"
              else st3
            (st4.dispatch element "inlineEditSuccess"
              [("field", optValue config.fieldName), ("oldValue", .string config.currentValue),
               ("newValue", value)], none)

/-- The `try` block of `handleFormSubmission`. -/
def trySave (br : Browser) (st : State) (element : ElemId) (config : Config)
    (newValue : String) (out : FetchOutcome) : State × Option JSError :=
  match saveField st config.modelType config.modelId config.fieldName newValue out with
  | (st1, .error err) => (st1, some err)
  | (st1, .ok result) =>
    match result.get "success" with
    | .error err => (st1, some err)
    | .ok success =>
      if success.truthy then applySaved br st1 element config result
      else
        match result.get "message" with
        | .error err => (st1, some err)
        | .ok message =>
          match (message.or (.string "Save failed")).toStr with
          | .error err => (st1, some err)
          | .ok text => (st1, some (newError text))

/-- The `catch` block of `handleFormSubmission`. -/
def saveFailed (st : State) (form : FormId) (element : ElemId) (config : Config)
    (originalText : String) (error : JSError) : State :=
  let st1 := st.setForm form { st.forms form with saveText := originalText, saveDisabled := false }
  let st2 :=
    if st1.showNotifications then
      showNotification st1
        (if error.message.isEmpty then "Failed to save changes" else error.message) "error"
    else st1
  st2.dispatch element "inlineEditError"
    [("field", optValue config.fieldName), ("error", .string error.message)]

/-- The method `handleFormSubmission(form)`, given how the `fetch` of `saveField` ends. -/
def handleFormSubmission (br : Browser) (st : State) (form : FormId) (out : FetchOutcome) :
    Result :=
  let config := (st.forms form).config
  let element := (st.forms form).element
  let newValue := (st.forms form).inputValue
  if newValue = config.currentValue then cancelEditing br st element
  else
    let originalText := (st.forms form).saveText
    let st1 := st.setForm form { st.forms form with saveText := "Saving...", saveDisabled := true }
    match trySave br st1 element config newValue out with
    | (st2, none) => ⟨st2, none⟩
    | (st2, some error) => ⟨saveFailed st2 form element config originalText error, none⟩

/-- The user types or selects `value` in the input of a form. -/
def userInput (st : State) (form : FormId) (value : String) : State :=
  st.setForm form { st.forms form with inputValue := value }

/-! ## Construction (`getCSRFToken`, the constructor) -/

/-- The call `text.split('; ')`, on characters; `acc` holds the piece being read, reversed. -/
def splitCookie : List Char → List Char → List (List Char)
  | [], acc => [acc.reverse]
  | [c], acc => [(c :: acc).reverse]
  | c :: d :: rest, acc =>
    if c = ';' ∧ d = ' ' then acc.reverse :: splitCookie rest []
    else splitCookie (d :: rest) (c :: acc)

/-- The call `text.split('=')`, on characters. -/
def splitEquals : List Char → List Char → List (List Char)
  | [], acc => [acc.reverse]
  | c :: rest, acc =>
    if c = '=' then acc.reverse :: splitEquals rest [] else splitEquals rest (c :: acc)

/-- The method `getCSRFToken()`, given `document.cookie` and the `meta[name=csrf-token]`
element: `none` when there is no such element, `some none` when it has no `content`
attribute.  The result `none` is `null`. -/
def getCSRFToken (cookie : String) (metaTag : Option (Option String)) : Option String :=
  let cookieValue : Option String :=
    match (splitCookie cookie.data []).find? (fun row => "csrftoken=".data.isPrefixOf row) with
    | none => none
    | some row => ((splitEquals row []).get? 1).map String.mk
  match cookieValue with
  | some v =>
    if !v.isEmpty then some v
    else
      match metaTag with
      | some content => content
      | none => some ""
  | none =>
    match metaTag with
    | some content => content
    | none => some ""

/-- The editor as the constructor leaves it, before `init()` calls `loadServices()`: the
options `baseUrl` and `showNotifications` (absent: `none`), the cookie and meta tag read by
`getCSRFToken()`, and the elements of the page.  `setupNotificationContainer()` has made
sure the container exists. -/
def newInlineEditor (baseUrl : Option String) (showNotifications : Option Bool)
    (cookie : String) (metaTag : Option (Option String)) (elements : ElemId → Element) :
    State :=
  { baseUrl :=
      match baseUrl with
      | some url => if url.isEmpty then "/api" else url
      | none => "/api"
    csrfToken := getCSRFToken cookie metaTag
    showNotifications := showNotifications.getD true
    activeEditors := []
    servicesCache := none
    elements := elements
    forms := fun _ => ⟨⟨none, none, none, ""⟩, 0, "text", [], false, "", "Save", false⟩
    nextForm := 0
    hasNotificationContainer := true
    requests := []
    notifications := []
    events := [] }

/-! ## Definitions used to state the properties -/

/-- One step of decoding, from the right: `c` is put before the decoded rest, and an
ampersand that opens one of the four references the serialiser writes is replaced, with
the reference, by the character referred to. -/
def unescapeStep (c : Char) (acc : List Char) : List Char :=
  if c = '&' then
    if "amp;".data.isPrefixOf acc then '&' :: acc.drop 4
    else if "nbsp;".data.isPrefixOf acc then '\u00a0' :: acc.drop 5
    else if "lt;".data.isPrefixOf acc then '<' :: acc.drop 3
    else if "gt;".data.isPrefixOf acc then '>' :: acc.drop 3
    else c :: acc
  else c :: acc

/-- Decoding of the character references `&amp;`, `&nbsp;`, `&lt;` and `&gt;`. -/
def unescapeHtml (html : String) : String := ⟨html.data.foldr unescapeStep []⟩

/-- Whether a character is written as itself by the serialiser. -/
def plainChar (c : Char) : Bool := c != '&' && c != '\u00a0' && c != '<' && c != '>'

/-- A text without `&`, `<`, `>` and no-break space. -/
def plainText (s : String) : Bool := s.data.all plainChar

/-- Formatting a value and then formatting the string obtained. -/
def formatTwice (br : Browser) (value : JSValue) (fieldName : Option String) :
    Except JSError String :=
  match formatDisplayValue br value fieldName with
  | .error err => .error err
  | .ok html => formatDisplayValue br (.string html) fieldName

/-- A browser for the examples: it parses the one date `2024-01-15`, prints dates the
American way, and neither rewrites markup nor input values. -/
def sampleBrowser : Browser where
  parseDate := fun s => if s = "2024-01-15" then some 1705276800000 else none
  timeClip := fun s => s.toInt?
  toLocaleDateString := fun t => if t = 1705276800000 then "1/15/2024" else "1/1/1970"
  toISOString := fun t =>
    if t = 1705276800000 then "2024-01-15T00:00:00.000Z" else "1970-01-01T00:00:00.000Z"
  textOfMarkup := fun html => html
  serializeMarkup := fun html => html
  sanitize := fun _ text => text

/-- Whether `v.key` can be read and is truthy. -/
def hasTruthy (v : JSValue) (key : String) : Bool :=
  match v.get key with
  | .ok x => x.truthy
  | .error _ => false

/-- A parsed body with a truthy `success`, a truthy `data` and a truthy `data.services`. -/
def hasServices (body : JSValue) : Bool :=
  hasTruthy body "success" && hasTruthy body "data" &&
    (match body.get "data" with
     | .ok inner => hasTruthy inner "services"
     | .error _ => false)

/-- The outcomes of the services request named by the fallback rule: the fetch throws, the
response is not OK, the body is not JSON, or the parsed body lacks a truthy `success`,
`data` or `data.services`. -/
def servicesUnavailable : FetchOutcome → Bool
  | .failed _ => true
  | .response r =>
    !r.ok ||
      (match r.json with
       | .error _ => true
       | .ok body => !hasServices body)

/-- A page of one element, the same at every identity: a `severity` field of
vulnerability 7 showing `Medium`. -/
def samplePage : ElemId → Element :=
  fun _ => ⟨some "vulnerability", some "7", some "severity", some "Medium",
    .rendered "Medium" "Medium"⟩

/-- The editor of the page script, `new InlineEditor({ showNotifications: true, ... })`,
on the sample page with the cookie `csrftoken=abc`. -/
def sampleEditor : State :=
  newInlineEditor none (some true) "csrftoken=abc" none samplePage

/-- An entry whose value and label are strings, as in the fixed lists. -/
def entryFixed (o : OptionEntry) : Bool :=
  match o.value, o.label with
  | .string _, .string _ => true
  | _, _ => false

/-- A descriptor that is not a `select`, or is one with a list of fixed entries. -/
def descriptorFixed (d : Descriptor) : Bool :=
  d.type != "select" ||
    (!d.loadDynamically &&
      match d.options with
      | some entries => entries.all entryFixed
      | none => false)

/-- A page whose elements are `service_type` fields of engagement 3 showing `Code Review`. -/
def servicePage : ElemId → Element :=
  fun _ => ⟨some "engagement", some "3", some "service_type", some "Code Review",
    .rendered "Code Review" "Code Review"⟩

/-- A response to the services request that lists one service without an `id`. -/
def serviceWithoutId : FetchOutcome :=
  .response ⟨200, "OK", .ok (.object [("success", .bool true),
    ("data", .object [("services", .array [.object [("name", .string "Audit")]])])])⟩

/-- A network error. -/
def offline : FetchOutcome := .failed ⟨"TypeError", "Failed to fetch"⟩

/-- The sample editor after a click on element 0. -/
def sampleEditing : State := (startEditing sampleBrowser sampleEditor 0 offline).state

/-- A parsed body of the shape `{ success: true, data: { value, formatted_value } }`:
`success` is truthy, and `data` holds the two values (an absent one being `undefined`). -/
def SuccessBody (body value formatted : JSValue) : Prop :=
  ∃ success data, body.get "success" = .ok success ∧ success.truthy = true ∧
    body.get "data" = .ok data ∧ data.get "value" = .ok value ∧
    data.get "formatted_value" = .ok formatted

/-- The three ways a save fails, with the error thrown: the request throws; the status is
not OK; the body has a falsy `success`, the error then carrying the message of the body,
or `Save failed` when the body has none. -/
inductive SaveFails : FetchOutcome → JSError → Prop where
  | transport (error : JSError) : SaveFails (.failed error) error
  | http (r : Response) (h : r.ok = false) :
      SaveFails (.response r) ⟨"Error", "HTTP " ++ toString r.status ++ ": " ++ r.statusText⟩
  | refused (r : Response) (body success message : JSValue) (text : String)
      (hok : r.ok = true) (hbody : r.json = .ok body)
      (hsuccess : body.get "success" = .ok success) (hfalsy : success.truthy = false)
      (hmessage : body.get "message" = .ok message)
      (htext : (if message.truthy then message else .string "Save failed").toStr = .ok text) :
      SaveFails (.response r) ⟨"Error", text⟩

/-- The sample editor with `High` selected in the open editor of element 0. -/
def sampleChanged : State := userInput sampleEditing 0 "High"

/-- The answer of the server to a successful save of `High`. -/
def savedHigh : FetchOutcome :=
  .response ⟨200, "OK", .ok (.object [("success", .bool true),
    ("data", .object [("value", .string "High"), ("formatted_value", .string "High")])])⟩

/-- The same page and the same edit under an editor made with `showNotifications: false`. -/
def quietChanged : State :=
  userInput (startEditing sampleBrowser
    (newInlineEditor none (some false) "csrftoken=abc" none samplePage) 0 offline).state 0 "High"

/-- A page whose elements are `description` fields of finding 4 with the stored value
`line one  line two` (two spaces) and the markup `line one<br>line two`. -/
def markupPage : ElemId → Element :=
  fun _ => ⟨some "vulnerability", some "4", some "description", some "line one  line two",
    .rendered "line one<br>line two" "line oneline two"⟩

/-- An element as a cancelled edit leaves it: with an editor whose captured value formats
to `html`, its content is `html`; otherwise it is as it was. -/
def cancelledElement (br : Browser) (st : State) (i : ElemId) : Element :=
  match mapGet st.activeEditors i with
  | some f =>
    match formatDisplayValue br (.string (st.forms f).config.currentValue)
        (st.forms f).config.fieldName with
    | .ok html => { st.elements i with content := .markup html }
    | .error _ => st.elements i
  | none => st.elements i

/-- The state in which the edits of the elements `keys` are cancelled and nothing else has
changed. -/
def cancelledState (br : Browser) (st : State) (keys : List ElemId) : State :=
  { st with
    activeEditors := st.activeEditors.filter (fun p => !keys.contains p.1)
    elements := fun i => if i ∈ keys then cancelledElement br st i else st.elements i }

/-- An OK response whose body is `{success: true, data: {services: []}}`. -/
def noServices : FetchOutcome :=
  .response ⟨200, "OK", .ok (.object [("success", .bool true),
    ("data", .object [("services", .array [])])])⟩

/-- A services response that lists two services, 3 and 7, both named `Code Review`. -/
def twoCodeReviews : FetchOutcome :=
  .response ⟨200, "OK", .ok (.object [("success", .bool true),
    ("data", .object [("services", .array
      [ .object [("id", .number (.other "3")), ("name", .string "Code Review"),
          ("display_name", .string "Code Review")],
        .object [("id", .number (.other "7")), ("name", .string "Code Review"),
          ("display_name", .string "Code Review (legacy)")] ])])])⟩

/-- A services response that lists service 3, `Code Review`. -/
def oneCodeReview : FetchOutcome :=
  .response ⟨200, "OK", .ok (.object [("success", .bool true),
    ("data", .object [("services", .array
      [ .object [("id", .number (.other "2")), ("name", .string "Audit"),
          ("display_name", .string "Audit")],
        .object [("id", .number (.other "3")), ("name", .string "Code Review"),
          ("display_name", .string "Code Review")] ])])])⟩

/-- The editor of the page of `service_type` fields. -/
def serviceEditor : State := newInlineEditor none none "csrftoken=abc" none servicePage

/-! ## The employee assignment widget (class `EmployeeManager`) -/

/-- An `option` element of the dropdown of available employees. -/
structure EmployeeOption where
  value : String
  text : String
  className : String
deriving DecidableEq, Repr

/-- The `select` element `available-employees-<id>`: its options and its value. -/
structure EmployeeSelect where
  options : List EmployeeOption
  value : String
deriving DecidableEq, Repr

/-- The `EmployeeManager` object with the inline editor it refers to and the two parts of
the page it renders, found by the text of the engagement id: the `innerHTML` of the first
element with `data-engagement-id`, and the `select` of available employees (`none` where
the page has no such element).  Requests are recorded in the state of the editor. -/
structure Manager where
  editor : State
  baseUrl : String
  csrfToken : Option String
  lists : String → Option String
  selects : String → Option EmployeeSelect

/-- How a method of the manager ends. -/
structure ManagerResult where
  state : Manager
  thrown : Option JSError

/-- The constructor `new EmployeeManager(inlineEditor)`, on a page. -/
def newEmployeeManager (editor : State) (lists : String → Option String)
    (selects : String → Option EmployeeSelect) : Manager :=
  ⟨editor, editor.baseUrl, editor.csrfToken, lists, selects⟩

/-- A call of `fetch` by the manager. -/
def Manager.send (m : Manager) (q : Request) : Manager :=
  { m with editor := { m.editor with requests := m.editor.requests ++ [q] } }

/-- The call `this.editor.showNotification(message, type)`. -/
def Manager.notify (m : Manager) (message type : String) : Manager :=
  { m with editor := showNotification m.editor message type }

/-- The headers of a `GET` of the manager. -/
def Manager.getHeaders (m : Manager) : List (String × String) :=
  [("X-CSRFToken", m.csrfToken.getD "null"), ("X-Requested-With", "XMLHttpRequest")]

/-- The headers of a `POST` of the manager. -/
def Manager.postHeaders (m : Manager) : List (String × String) :=
  ("Content-Type", "application/json") :: m.getHeaders

/-- What the four API methods make of the end of their `fetch`: the parsed body, or the
error they rethrow (the one of the transport, `HTTP <status>: <statusText>`, or the one of
the parser). -/
def apiResult : FetchOutcome → Except JSError JSValue
  | .failed err => .error err
  | .response r =>
    if !r.ok then .error (newError ("HTTP " ++ toString r.status ++ ": " ++ r.statusText))
    else r.json

/-- The properties `JSON.stringify` writes: those that are not `undefined`. -/
def jsonProps (props : List (String × JSValue)) : List (String × JSValue) :=
  props.filter (fun p =>
    match p.2 with
    | .undefined => false
    | _ => true)

/-- The method `getEngagementEmployees(engagementId)`. -/
def getEngagementEmployees (m : Manager) (engagementId : String) (out : FetchOutcome) :
    Manager × Except JSError JSValue :=
  (m.send ⟨"GET", m.baseUrl ++ "/engagement/" ++ engagementId ++ "/employees/",
    m.getHeaders, none⟩, apiResult out)

/-- The method `getAvailableEmployees()`. -/
def getAvailableEmployees (m : Manager) (out : FetchOutcome) :
    Manager × Except JSError JSValue :=
  (m.send ⟨"GET", m.baseUrl ++ "/employees/available/", m.getHeaders, none⟩, apiResult out)

/-- The method `addEmployeeToEngagement(engagementId, employeeId, checkConflicts)`. -/
def addEmployeeToEngagement (m : Manager) (engagementId : String) (employeeId : JSValue)
    (checkConflicts : Bool) (out : FetchOutcome) : Manager × Except JSError JSValue :=
  (m.send ⟨"POST", m.baseUrl ++ "/engagement/" ++ engagementId ++ "/add-employee/",
    m.postHeaders,
    some (jsonProps [("employee_id", employeeId), ("check_conflicts", .bool checkConflicts)])⟩,
   apiResult out)

/-- The method `removeEmployeeFromEngagement(engagementId, employeeId)`. -/
def removeEmployeeFromEngagement (m : Manager) (engagementId : String) (employeeId : JSValue)
    (out : FetchOutcome) : Manager × Except JSError JSValue :=
  (m.send ⟨"POST", m.baseUrl ++ "/engagement/" ++ engagementId ++ "/remove-employee/",
    m.postHeaders, some (jsonProps [("employee_id", employeeId)])⟩,
   apiResult out)

/-- Reading `v.key` and converting it for a template literal. -/
def templateGet (v : JSValue) (key : String) : Except JSError String :=
  match v.get key with
  | .error e => .error e
  | .ok x => x.toStr

/-- The markup of one team member in the list of `loadCurrentEmployees`. -/
def employeeItem (engagementId : String) (emp : JSValue) : Except JSError String :=
  match templateGet emp "full_name" with
  | .error e => .error e
  | .ok fullName =>
    match templateGet emp "user_type" with
    | .error e => .error e
    | .ok userType =>
      match templateGet emp "id" with
      | .error e => .error e
      | .ok id =>
        .ok ("\n                    <div class=\"employee-item d-flex " ++
          "justify-content-between align-items-center mb-2 p-2 border rounded\">" ++
          "\n                        <div>\n                            <strong>" ++
          fullName ++
          "</strong> \n                            <small class=\"text-muted\">(" ++
          userType ++
          ")</small>\n                        </div>\n" ++
          "                        <button class=\"btn btn-danger btn-sm\" \n" ++
          "                                onclick=\"employeeManager.removeEmployee(" ++
          engagementId ++ ", " ++ id ++ ", '" ++ fullName ++
          "')\"\n                                title=\"Remove from engagement\">\n" ++
          "                            \u00c3\u2014\n                        </button>\n" ++
          "                    </div>\n                ")

/-- The test `employees.length === 0`. -/
def lengthIsZero : JSValue → Except JSError Bool
  | .undefined => .error (typeError "Cannot read properties of undefined (reading 'length')")
  | .null => .error (typeError "Cannot read properties of null (reading 'length')")
  | .array items => .ok items.isEmpty
  | .string s => .ok s.isEmpty
  | .object props => .ok ((props.lookup "length").getD .undefined).isZero
  | _ => .ok false

/-- The call `employees.map(callback)` or `employees.forEach(callback)`: only an array has
the method. -/
def eachEmployee {β : Type} (f : JSValue → Except JSError β) :
    JSValue → Except JSError (List β)
  | .array items => mapAll f items
  | .undefined => .error (typeError "Cannot read properties of undefined")
  | .null => .error (typeError "Cannot read properties of null")
  | _ => .error (typeError "employees.map is not a function")

/-- The markup shown when the team cannot be loaded. -/
def listError : String := "<em class=\"text-danger\">Error loading team members</em>"

/-- The `try` block of `loadCurrentEmployees` after the request: the markup it assigns. -/
def renderEmployees (engagementId : String) (res : Except JSError JSValue) :
    Except JSError String :=
  match res with
  | .error e => .error e
  | .ok result =>
    match result.get "success" with
    | .error e => .error e
    | .ok success =>
      if success.truthy then
        match result.get "data" with
        | .error e => .error e
        | .ok data =>
          match data.get "employees" with
          | .error e => .error e
          | .ok employees =>
            match lengthIsZero employees with
            | .error e => .error e
            | .ok true => .ok "<em class=\"text-muted\">No team members assigned</em>"
            | .ok false =>
              match eachEmployee (employeeItem engagementId) employees with
              | .error e => .error e
              | .ok items => .ok (String.join items)
      else .ok listError

/-- The method `loadCurrentEmployees(engagementId)`, given how its request ends. -/
def loadCurrentEmployees (m : Manager) (engagementId : String) (out : FetchOutcome) :
    Manager :=
  match m.lists engagementId with
  | none => m
  | some _ =>
    let m1 := (getEngagementEmployees m engagementId out).1
    let html :=
      match renderEmployees engagementId (getEngagementEmployees m engagementId out).2 with
      | .ok html => html
      | .error _ => listError
    { m1 with lists := fun id => if id = engagementId then some html else m1.lists id }

/-- The `option` element `loadAvailableEmployeesDropdown` makes for one employee. -/
def employeeOption (emp : JSValue) : Except JSError EmployeeOption :=
  match templateGet emp "id" with
  | .error e => .error e
  | .ok id =>
    match templateGet emp "full_name" with
    | .error e => .error e
    | .ok fullName =>
      match templateGet emp "status_label" with
      | .error e => .error e
      | .ok label =>
        match emp.get "status" with
        | .error e => .error e
        | .ok status =>
          .ok ⟨id, fullName ++ " (" ++ label ++ ")",
            if status.strictEqString "Available" then "text-success" else "text-warning"⟩

/-- The dropdown shown when the employees cannot be loaded. -/
def selectError : EmployeeSelect := ⟨[⟨"", "Error loading employees", ""⟩], ""⟩

/-- The `try` block of `loadAvailableEmployeesDropdown` after the request: the options the
select ends with. -/
def renderAvailable (res : Except JSError JSValue) : Except JSError EmployeeSelect :=
  match res with
  | .error e => .error e
  | .ok result =>
    match result.get "success" with
    | .error e => .error e
    | .ok success =>
      if success.truthy then
        match result.get "data" with
        | .error e => .error e
        | .ok data =>
          match data.get "employees" with
          | .error e => .error e
          | .ok employees =>
            match eachEmployee employeeOption employees with
            | .error e => .error e
            | .ok options => .ok ⟨⟨"", "Select an employee...", ""⟩ :: options, ""⟩
      else .ok selectError

/-- The method `loadAvailableEmployeesDropdown(engagementId)`, given how its request
ends. -/
def loadAvailableEmployeesDropdown (m : Manager) (engagementId : String)
    (out : FetchOutcome) : Manager :=
  match m.selects engagementId with
  | none => m
  | some _ =>
    let m1 := (getAvailableEmployees m out).1
    let select :=
      match renderAvailable (getAvailableEmployees m out).2 with
      | .ok select => select
      | .error _ => selectError
    { m1 with selects := fun id => if id = engagementId then some select else m1.selects id }

/-- The assignment `select.value = ''` on the dropdown of an engagement. -/
def Manager.resetSelect (m : Manager) (engagementId : String) : Manager :=
  { m with selects := fun id =>
      if id = engagementId then (m.selects id).map (fun s => { s with value := "" })
      else m.selects id }

/-- The call `showNotification(result.message || fallback, 'error')`: the message is
converted to text when the alert is built, which is not done without the container. -/
def notifyFailure (m : Manager) (result : JSValue) (fallback : String) :
    Except JSError Manager :=
  match result.get "message" with
  | .error e => .error e
  | .ok message =>
    if m.editor.hasNotificationContainer then
      match (message.or (.string fallback)).toStr with
      | .error e => .error e
      | .ok text => .ok (m.notify text "error")
    else .ok m

/-- The `try` block shared in shape by `addSelectedEmployee` and `removeEmployee`, after
the request: on success the notification and the refresh of both lists (`reset` is the
change made between starting the two refreshes and their answers), otherwise the error
notification; an exception is for the `catch` block. -/
def afterMutation (m : Manager) (engagementId : String) (res : Except JSError JSValue)
    (done failed : String) (reset : Manager → Manager) (outList outAvailable : FetchOutcome) :
    Except JSError Manager :=
  match res with
  | .error e => .error e
  | .ok result =>
    match result.get "success" with
    | .error e => .error e
    | .ok success =>
      if success.truthy then
        let m1 := m.notify done "success"
        let m2 := reset m1
        let m3 := loadCurrentEmployees m2 engagementId outList
        .ok (loadAvailableEmployeesDropdown m3 engagementId outAvailable)
      else notifyFailure m result failed

/-- The method `addSelectedEmployee(engagementId)`, given how the request and, after a
success, the two refresh requests end. -/
def addSelectedEmployee (m : Manager) (engagementId : String)
    (out outList outAvailable : FetchOutcome) : ManagerResult :=
  match m.selects engagementId with
  | none => ⟨m, some (typeError "Cannot read properties of null (reading 'value')")⟩
  | some select =>
    if select.value.isEmpty then ⟨m.notify "Please select an employee" "warning", none⟩
    else
      let sent := addEmployeeToEngagement m engagementId (.string select.value) true out
      match afterMutation sent.1 engagementId sent.2 "Employee added successfully"
          "Failed to add employee" (fun s => s.resetSelect engagementId) outList
          outAvailable with
      | .ok m1 => ⟨m1, none⟩
      | .error _ => ⟨sent.1.notify "Error adding employee" "error", none⟩

/-- The method `removeEmployee(engagementId, employeeId, employeeName)`, given the answer to
the `confirm` prompt and how the request and, after a success, the two refresh requests
end. -/
def removeEmployee (m : Manager) (engagementId : String) (employeeId : JSValue)
    (_employeeName : String) (confirmed : Bool) (out outList outAvailable : FetchOutcome) :
    ManagerResult :=
  if !confirmed then ⟨m, none⟩
  else
    let sent := removeEmployeeFromEngagement m engagementId employeeId out
    match afterMutation sent.1 engagementId sent.2 "Employee removed successfully"
        "Failed to remove employee" (fun s => s) outList outAvailable with
    | .ok m1 => ⟨m1, none⟩
    | .error _ => ⟨sent.1.notify "Error removing employee" "error", none⟩

/-- The sample page with the widget of engagement 3: a list showing the loading text and a
dropdown offering employees 5 and 8, none chosen. -/
def sampleManager : Manager :=
  newEmployeeManager sampleEditor
    (fun id => if id = "3" then some "<div class=\"loading\">Loading team members...</div>"
      else none)
    (fun id => if id = "3" then
        some ⟨[⟨"", "Select an employee...", ""⟩, ⟨"5", "Ada (Available)", "text-success"⟩,
          ⟨"8", "Bob (On leave)", "text-warning"⟩], ""⟩
      else none)

/-- The user chooses an entry of the dropdown of an engagement. -/
def chooseEmployee (m : Manager) (engagementId value : String) : Manager :=
  { m with selects := fun id =>
      if id = engagementId then (m.selects id).map (fun s => { s with value := value })
      else m.selects id }

/-- An OK response with the body `{success: true}`. -/
def succeeded : FetchOutcome :=
  .response ⟨200, "OK", .ok (.object [("success", .bool true)])⟩

/-! ## The modal form launchers (`base-add.js`, two revisions) -/

/-- A toast of `Fnon.Hint`: its kind, its text and its settings (the dismissal callback
does nothing). -/
structure Hint where
  kind : String
  message : String
  title : String
  position : String
  animation : String
deriving DecidableEq, Repr

/-- The options object given to `ajaxSubmit`; the two callbacks are given by the toast
each shows. -/
structure AjaxOptions where
  dataType : String
  cache : Bool
  success : Hint
  error : Hint
deriving DecidableEq, Repr

/-- A call `$(form).ajaxSubmit(options)`. -/
structure Submission where
  form : String
  options : AjaxOptions
deriving DecidableEq, Repr

/-- What a confirm callback did: the submission it issued, if any, and the value it
returned (`none` for `undefined`). -/
structure CallbackResult where
  submitted : Option Submission
  returned : Option Bool
deriving DecidableEq, Repr

/-- The settings object given to `Fnon.Dialogue.Danger`: title, the name of the template
shown as message, and the confirm callback, which is given what `$(form).valid()` answers
should it ask. -/
structure Dialogue where
  title : String
  message : String
  callback : Bool → CallbackResult

/-- The function `AjaxSucceeded` of each launcher. -/
def AjaxSucceeded : Hint :=
  ⟨"Success", "Seccessful Operation", "Calendarinho", "center-top", "slide-top"⟩

/-- The function `AjaxFailed` of each launcher. -/
def AjaxFailed : Hint :=
  ⟨"Danger", "Failed Operation", "Calendarinho", "center-top", "slide-top"⟩

/-- The later revision, `static/js/base-add.js`. -/
def Later.AddLeave : Dialogue :=
  { title := "Add Leave"
    message := "leave_form"
    callback := fun valid =>
      let options : AjaxOptions := ⟨"json", false, AjaxSucceeded, AjaxFailed⟩
      if valid then ⟨some ⟨"#leave_add", options⟩, none⟩ else ⟨none, some false⟩ }

/-- The later revision of `AddEngagement`. -/
def Later.AddEngagement : Dialogue :=
  { title := "Add Engagement"
    message := "engagement_form"
    callback := fun valid =>
      let options : AjaxOptions := ⟨"json", false, AjaxSucceeded, AjaxFailed⟩
      if valid then ⟨some ⟨"#engagement_add", options⟩, none⟩ else ⟨none, some false⟩ }

/-- The later revision of `AddClient`. -/
def Later.AddClient : Dialogue :=
  { title := "Add Client"
    message := "client_form"
    callback := fun valid =>
      let options : AjaxOptions := ⟨"json", false, AjaxSucceeded, AjaxFailed⟩
      if valid then ⟨some ⟨"#client_add", options⟩, none⟩ else ⟨none, some false⟩ }

/-- The earlier revision, `CalendarinhoApp/static/js/base-add.js`: the callback does not ask
for the validity of the form. -/
def Earlier.AddLeave : Dialogue :=
  { title := "Add Leave"
    message := "leave_form"
    callback := fun _ =>
      let options : AjaxOptions := ⟨"json", false, AjaxSucceeded, AjaxFailed⟩
      ⟨some ⟨"#leave_add", options⟩, none⟩ }

/-- The earlier revision of `AddEngagement`. -/
def Earlier.AddEngagement : Dialogue :=
  { title := "Add Engagement"
    message := "engagement_form"
    callback := fun _ =>
      let options : AjaxOptions := ⟨"json", false, AjaxSucceeded, AjaxFailed⟩
      ⟨some ⟨"#engagement_add", options⟩, none⟩ }

/-- The earlier revision of `AddClient`. -/
def Earlier.AddClient : Dialogue :=
  { title := "Add Client"
    message := "client_form"
    callback := fun _ =>
      let options : AjaxOptions := ⟨"json", false, AjaxSucceeded, AjaxFailed⟩
      ⟨some ⟨"#client_add", options⟩, none⟩ }

/-- The three launchers of a revision, in the order leave, engagement, client. -/
def laterLaunchers : List Dialogue := [Later.AddLeave, Later.AddEngagement, Later.AddClient]

/-- The three launchers of the earlier revision, in the same order. -/
def earlierLaunchers : List Dialogue :=
  [Earlier.AddLeave, Earlier.AddEngagement, Earlier.AddClient]

/-! ## The dynamic branch of `createEditor` (`loadServiceOptions`) -/

/-- The condition under which `createEditor` calls `loadServiceOptions`: the `select` case
of the `switch`, with `inputType.loadDynamically && fieldName === 'service_type'`. -/
def callsLoadServiceOptions (st : State) (config : Config) : Bool :=
  decide ((getInputType st config.fieldName config.modelType).type = some "select") &&
    ((getInputType st config.fieldName config.modelType).loadDynamically &&
      decide (config.fieldName = some "service_type"))

/-- The `option` element `loadServiceOptions` makes for one service of the response. -/
def serviceOption (currentValue : String) (service : JSValue) : Except JSError SelectOption :=
  match service.get "id" with
  | .error e => .error e
  | .ok id =>
    match id.toStr with
    | .error e => .error e
    | .ok value =>
      match service.get "display_name" with
      | .error e => .error e
      | .ok display =>
        match domText display with
        | .error e => .error e
        | .ok label =>
          match id.callToString with
          | .error e => .error e
          | .ok text =>
            if text == currentValue then .ok ⟨value, label, true⟩
            else
              match service.get "name" with
              | .error e => .error e
              | .ok name => .ok ⟨value, label, name.strictEqString currentValue⟩

/-- The `try` block of `loadServiceOptions` after its `fetch`: the options the select is
filled with, or the exception for the `catch` block. -/
def loadedServiceOptions (currentValue : String) (out : FetchOutcome) :
    Except JSError (List SelectOption) :=
  match out with
  | .failed e => .error e
  | .response r =>
    if !r.ok then .error (newError ("HTTP " ++ toString r.status ++ ": " ++ r.statusText))
    else
      match r.json with
      | .error e => .error e
      | .ok data =>
        match data.get "success" with
        | .error e => .error e
        | .ok success =>
          let refused : Except JSError (List SelectOption) :=
            match data.get "message" with
            | .error e => .error e
            | .ok message =>
              match (message.or (.string "Failed to load services")).toStr with
              | .error e => .error e
              | .ok text => .error (newError text)
          if !success.truthy then refused
          else
            match data.get "data" with
            | .error e => .error e
            | .ok inner =>
              match inner.get "services" with
              | .error e => .error e
              | .ok services =>
                if !services.truthy then refused
                else
                  match services with
                  | .array items => mapAll (serviceOption currentValue) items
                  | _ => .error (typeError "data.data.services.forEach is not a function")

/-- The rest of `loadServiceOptions(selectElement, currentValue)` after its `fetch`, on the
select of a form that `createEditor` left loading: the select is enabled again and holds
the options of the response, or the single option `Error loading services`, with an
error notification when notifications are on. -/
def loadServiceOptionsDone (st : State) (form : FormId) (out : FetchOutcome) : State :=
  match loadedServiceOptions (st.forms form).config.currentValue out with
  | .ok opts =>
    st.setForm form
      { st.forms form with options := opts, inputDisabled := false, inputValue := selectValue opts }
  | .error _ =>
    let st1 := st.setForm form
      { st.forms form with
        options := [⟨"", "Error loading services", false⟩], inputDisabled := false,
        inputValue := "" }
    if st1.showNotifications then showNotification st1 "Failed to load services" "error"
    else st1

/-- The sample page with the `data-field` attribute of element 0 left out. -/
def fieldlessPage : ElemId → Element :=
  fun i =>
    if i = 0 then
      ⟨some "vulnerability", some "7", none, some "Medium", .rendered "Medium" "Medium"⟩
    else samplePage i

/-- The editor of that page after a click on element 0: a text input is open on it, with
no field name captured. -/
def fieldlessEditing : State :=
  (startEditing sampleBrowser
    (newInlineEditor none (some true) "csrftoken=abc" none fieldlessPage) 0 offline).state

/-- The same with a second editor open, on the `severity` element 1. -/
def fieldlessBoth : State := (startEditing sampleBrowser fieldlessEditing 1 offline).state

/-- The same as `fieldlessEditing` with `High` typed into the open input. -/
def fieldlessChanged : State := userInput fieldlessEditing 0 "High"

/-! ## Properties -/

/-! ### Escaping -/

theorem escapeChar_ne_nil (c : Char) : escapeChar c ≠ [] := by
  unfold escapeChar
  split_ifs <;> simp

theorem escapeChar_no_angle (c : Char) : '<' ∉ escapeChar c ∧ '>' ∉ escapeChar c := by
  unfold escapeChar
  split_ifs with h1 h2 h3 h4
  · decide
  · decide
  · decide
  · decide
  · simp only [List.mem_singleton]
    exact ⟨fun h => h3 h.symm, fun h => h4 h.symm⟩

theorem escapeHtml_no_angle (s : String) :
    '<' ∉ (escapeHtml s).data ∧ '>' ∉ (escapeHtml s).data := by
  simp only [escapeHtml, List.mem_flatMap, not_exists, not_and]
  exact ⟨fun c _ => (escapeChar_no_angle c).1, fun c _ => (escapeChar_no_angle c).2⟩

theorem escapeHtml_ne_notSet (s : String) : escapeHtml s ≠ notSet := by
  intro h
  have h1 := (escapeHtml_no_angle s).1
  rw [h] at h1
  exact h1 (by decide)

theorem unescapeStep_plain (c : Char) (acc : List Char) (h : c ≠ '&') :
    unescapeStep c acc = c :: acc := by
  simp [unescapeStep, h]

theorem unescape_escapeChar (c : Char) (acc : List Char) :
    (escapeChar c).foldr unescapeStep acc = c :: acc := by
  unfold escapeChar
  split_ifs with h1 h2 h3 h4
  · subst h1; simp [unescapeStep]
  · subst h2; simp [unescapeStep]
  · subst h3; simp [unescapeStep]
  · subst h4; simp [unescapeStep]
  · simp [unescapeStep, h1]

theorem unescape_escape_chars (l : List Char) :
    (l.flatMap escapeChar).foldr unescapeStep [] = l := by
  induction l with
  | nil => rfl
  | cons c cs ih =>
    rw [List.flatMap_cons, List.foldr_append, ih, unescape_escapeChar]

theorem unescapeHtml_escapeHtml (s : String) : unescapeHtml (escapeHtml s) = s := by
  simp [unescapeHtml, escapeHtml, unescape_escape_chars]

theorem isEmpty_eq_false_iff (s : String) : s.isEmpty = false ↔ s ≠ "" := by
  have h := String.isEmpty_iff s
  cases hs : s.isEmpty <;> simp_all

theorem escapeHtml_isEmpty (s : String) : (escapeHtml s).isEmpty = s.isEmpty := by
  rcases s with ⟨l⟩
  cases l with
  | nil => rfl
  | cons c cs =>
    have h1 : (String.mk (c :: cs)).isEmpty = false := by
      rw [isEmpty_eq_false_iff]; simp [String.ext_iff]
    rw [h1, isEmpty_eq_false_iff]
    intro h
    have h2 := congrArg String.data h
    simp only [escapeHtml, List.flatMap_cons] at h2
    have h3 := escapeChar_ne_nil c
    cases hc : escapeChar c with
    | nil => exact h3 hc
    | cons a as => rw [hc] at h2; simp at h2

theorem escapeChar_plain (c : Char) (h : plainChar c = true) : escapeChar c = [c] := by
  simp only [plainChar, Bool.and_eq_true, bne_iff_ne, ne_eq] at h
  simp [escapeChar, h.1.1.1, h.1.1.2, h.1.2, h.2]

theorem escapeChar_length (c : Char) (h : plainChar c = false) : 1 < (escapeChar c).length := by
  unfold escapeChar
  split_ifs with h1 h2 h3 h4
  · decide
  · decide
  · decide
  · decide
  · simp [plainChar, h1, h2, h3, h4] at h

theorem escapeChar_length_pos (c : Char) : 1 ≤ (escapeChar c).length := by
  unfold escapeChar
  split_ifs <;> simp

theorem flatMap_escape_length (l : List Char) : l.length ≤ (l.flatMap escapeChar).length := by
  induction l with
  | nil => simp
  | cons c cs ih =>
    have := escapeChar_length_pos c
    simp only [List.flatMap_cons, List.length_append, List.length_cons]
    omega

theorem flatMap_escape_eq_iff (l : List Char) :
    l.flatMap escapeChar = l ↔ l.all plainChar = true := by
  induction l with
  | nil => simp
  | cons c cs ih =>
    constructor
    · intro h
      have hlen := congrArg List.length h
      simp only [List.flatMap_cons, List.length_append, List.length_cons] at hlen
      have h1 := flatMap_escape_length cs
      have h2 := escapeChar_length_pos c
      have hc : plainChar c = true := by
        by_contra hcon
        have := escapeChar_length c (by simpa using hcon)
        omega
      rw [List.flatMap_cons, escapeChar_plain c hc] at h
      simp only [List.singleton_append, List.cons.injEq, true_and] at h
      simp [hc, ih.mp h]
    · intro h
      simp only [List.all_cons, Bool.and_eq_true] at h
      rw [List.flatMap_cons, escapeChar_plain c h.1, ih.mpr h.2]
      rfl

theorem escapeHtml_eq_self_iff (s : String) : escapeHtml s = s ↔ plainText s = true := by
  rw [plainText, ← flatMap_escape_eq_iff]
  constructor
  · intro h; exact congrArg String.data h
  · intro h; exact String.ext h

/-! ### Display formatting -/

theorem formatDisplayValue_of_shown (br : Browser) (value : JSValue) (fieldName : String)
    (hshown : (value.truthy || value.isZero) = true)
    (hfield : includes fieldName "date" = false) :
    formatDisplayValue br value (some fieldName) = value.callToString.map escapeHtml := by
  have h : (!value.truthy && !value.isZero) = false := by
    cases h1 : value.truthy <;> cases h2 : value.isZero <;> simp_all
  simp only [formatDisplayValue, h, hfield, Bool.false_eq_true, if_false]
  cases value.callToString <;> rfl

theorem formatDisplayValue_of_hidden (br : Browser) (value : JSValue)
    (fieldName : Option String) (hfalsy : value.truthy = false) (hzero : value.isZero = false) :
    formatDisplayValue br value fieldName = .ok notSet := by
  simp [formatDisplayValue, hfalsy, hzero]

/-- C8: on a field whose name does not contain "date", `formatDisplayValue` of a non-empty
string is its HTML-escaped form: every `&`, `<`, `>` (and no-break space) is written as
its entity, so the result has no `<` and no `>`, and decoding the entities gives the
string back; `<script>x</script>` becomes `&lt;script&gt;x&lt;/script&gt;`. -/
theorem formatDisplayValue_escapes (br : Browser) (value fieldName : String)
    (hvalue : value ≠ "") (hfield : includes fieldName "date" = false) :
    formatDisplayValue br (.string value) (some fieldName) = .ok (escapeHtml value) ∧
    (escapeHtml value).data = value.data.flatMap (fun c =>
      if c = '&' then ['&', 'a', 'm', 'p', ';']
      else if c = ' ' then ['&', 'n', 'b', 's', 'p', ';']
      else if c = '<' then ['&', 'l', 't', ';']
      else if c = '>' then ['&', 'g', 't', ';']
      else [c]) ∧
    '<' ∉ (escapeHtml value).data ∧ '>' ∉ (escapeHtml value).data ∧
    unescapeHtml (escapeHtml value) = value ∧
    formatDisplayValue br (.string "<script>x</script>") (some fieldName) =
      .ok "&lt;script&gt;x&lt;/script&gt;" := by
  have hshown : ∀ s : String, s ≠ "" →
      ((JSValue.string s).truthy || (JSValue.string s).isZero) = true := by
    intro s hs
    simp [JSValue.truthy, JSValue.isZero, (isEmpty_eq_false_iff s).mpr hs]
  refine ⟨?_, rfl, (escapeHtml_no_angle value).1, (escapeHtml_no_angle value).2,
    unescapeHtml_escapeHtml value, ?_⟩
  · rw [formatDisplayValue_of_shown br _ fieldName (hshown value hvalue) hfield]
    rfl
  · rw [formatDisplayValue_of_shown br _ fieldName (hshown _ (by decide)) hfield]
    decide

/-- C8, an instance: the field `severity` and the value `<script>x</script>`. -/
theorem formatDisplayValue_escapes_witness :
    formatDisplayValue sampleBrowser (.string "<script>x</script>") (some "severity") =
      .ok "&lt;script&gt;x&lt;/script&gt;" ∧
    unescapeHtml "&lt;script&gt;x&lt;/script&gt;" = "<script>x</script>" :=
  ⟨(formatDisplayValue_escapes sampleBrowser "<script>x</script>" "severity"
      (by decide) (by decide)).2.2.2.2.2, by decide⟩

theorem escapeChar_not_plain (c : Char) (h : plainChar c = false) :
    (escapeChar c).all plainChar = false := by
  unfold escapeChar
  split_ifs with h1 h2 h3 h4
  · decide
  · decide
  · decide
  · decide
  · simp [plainChar, h1, h2, h3, h4] at h

theorem plain_of_escape_plain (l : List Char)
    (h : (l.flatMap escapeChar).all plainChar = true) : l.all plainChar = true := by
  induction l with
  | nil => rfl
  | cons c cs ih =>
    rw [List.flatMap_cons, List.all_append, Bool.and_eq_true] at h
    have hc : plainChar c = true := by
      by_contra hcon
      have := escapeChar_not_plain c (by simpa using hcon)
      rw [this] at h
      exact Bool.false_ne_true h.1
    simp [hc, ih h.2]

theorem plainText_escapeHtml (s : String) (h : plainText (escapeHtml s) = true) :
    escapeHtml s = s :=
  (escapeHtml_eq_self_iff s).mpr (plain_of_escape_plain s.data h)

theorem formatDisplayValue_string (br : Browser) (s fieldName : String)
    (hfield : includes fieldName "date" = false) :
    formatDisplayValue br (.string s) (some fieldName) =
      if s = "" then .ok notSet else .ok (escapeHtml s) := by
  split_ifs with h
  · subst h; rfl
  · rw [formatDisplayValue_of_shown br _ fieldName
      (by simp [JSValue.truthy, JSValue.isZero, (isEmpty_eq_false_iff s).mpr h]) hfield]
    rfl

/-- C9 fails: on the field `severity`, formatting `<script>x</script>` gives
`&lt;script&gt;x&lt;/script&gt;`, and formatting that again escapes the ampersands. -/
theorem formatDisplayValue_not_idempotent :
    formatTwice sampleBrowser (.string "<script>x</script>") (some "severity") ≠
      formatDisplayValue sampleBrowser (.string "<script>x</script>") (some "severity") ∧
    formatDisplayValue sampleBrowser (.string "<script>x</script>") (some "severity") =
      .ok "&lt;script&gt;x&lt;/script&gt;" ∧
    formatTwice sampleBrowser (.string "<script>x</script>") (some "severity") =
      .ok "&amp;lt;script&amp;gt;x&amp;lt;/script&amp;gt;" := by
  decide

/-- C9 as amended: on a field whose name does not contain "date", when a value is
formatted to the string `out`, formatting `out` again gives `out` exactly when the value
is not shown as the placeholder and its string form is non-empty and has no `&`, `<`, `>`
or no-break space; `out` is then that string form. -/
theorem formatDisplayValue_idempotent_iff (br : Browser) (value : JSValue)
    (fieldName out : String) (hfield : includes fieldName "date" = false)
    (hout : formatDisplayValue br value (some fieldName) = .ok out) :
    formatDisplayValue br (.string out) (some fieldName) = .ok out ↔
      ((value.truthy || value.isZero) = true ∧ value.callToString = .ok out ∧
        out ≠ "" ∧ plainText out = true) := by
  rw [formatDisplayValue_string br out fieldName hfield]
  cases hshown : (value.truthy || value.isZero)
  · have h1 : value.truthy = false ∧ value.isZero = false := by
      simpa [Bool.or_eq_false_iff] using hshown
    rw [formatDisplayValue_of_hidden br value _ h1.1 h1.2] at hout
    have h2 : out = notSet := by injection hout with h; exact h.symm
    subst h2
    have h3 : notSet ≠ "" := by decide
    rw [if_neg h3]
    have h4 := escapeHtml_ne_notSet notSet
    simp [h4]
  · rw [formatDisplayValue_of_shown br value fieldName hshown hfield] at hout
    cases hs : value.callToString with
    | error e => rw [hs] at hout; cases hout
    | ok s =>
      rw [hs] at hout
      have h2 : escapeHtml s = out := by injection hout
      by_cases hempty : out = ""
      · subst hempty
        rw [if_pos rfl]
        constructor
        · intro h; injection h with h; exact absurd h (by decide)
        · intro h; exact absurd rfl h.2.2.1
      · rw [if_neg hempty]
        constructor
        · intro h
          have h3 : escapeHtml out = out := by injection h
          have h4 := (escapeHtml_eq_self_iff out).mp h3
          have h5 : escapeHtml s = s := plainText_escapeHtml s (by rw [h2]; exact h4)
          refine ⟨rfl, ?_, hempty, h4⟩
          rw [← h2, h5]
        · intro h
          rw [(escapeHtml_eq_self_iff out).mpr h.2.2.2]

/-- C9 as amended, an instance: `High` on the field `severity` is formatted to `High`,
and again to `High`. -/
theorem formatDisplayValue_idempotent_iff_witness :
    formatDisplayValue sampleBrowser (.string "High") (some "severity") = .ok "High" :=
  (formatDisplayValue_idempotent_iff sampleBrowser (.string "High") "severity" "High"
    (by decide) (by decide)).mpr (by decide)

/-- C10 fails: the number 0 is falsy, and on the field `severity` it is shown as `0`,
not as the placeholder. -/
theorem formatDisplayValue_zero_not_placeholder :
    (JSValue.number (.zero false)).truthy = false ∧
    formatDisplayValue sampleBrowser (.number (.zero false)) (some "severity") ≠ .ok notSet ∧
    formatDisplayValue sampleBrowser (.number (.zero false)) (some "severity") = .ok "0" := by
  decide

/-- C10 as amended: for every field name, present or not, a falsy value other than the
number 0 (the empty string, `null`, `undefined`, `false`, `NaN`) is shown as the
placeholder `<em>Not set</em>`; the number 0 is shown as `0`, or on a date field as the
date of time value 0; and no other value is shown as the placeholder, as long as no date
is printed as that text. -/
theorem formatDisplayValue_placeholder (br : Browser) (value : JSValue)
    (fieldName : Option String) :
    (value.truthy = false → value.isZero = false →
      formatDisplayValue br value fieldName = .ok notSet) ∧
    (∀ v ∈ [JSValue.string "", .null, .undefined, .bool false, .number .nan],
      formatDisplayValue br v fieldName = .ok notSet) ∧
    (value.isZero = true → ∀ f : String, fieldName = some f →
      formatDisplayValue br value fieldName =
        if includes f "date" then .ok (br.toLocaleDateString 0) else .ok "0") ∧
    ((value.truthy || value.isZero) = true → (∀ t, br.toLocaleDateString t ≠ notSet) →
      formatDisplayValue br value fieldName ≠ .ok notSet) := by
  refine ⟨formatDisplayValue_of_hidden br value fieldName, ?_, ?_, ?_⟩
  · intro v hv
    simp only [List.mem_cons, List.mem_singleton, List.not_mem_nil, or_false] at hv
    rcases hv with h | h | h | h | h <;> subst h <;> rfl
  · intro hzero f hf
    subst hf
    cases value with
    | number n =>
      cases n with
      | zero neg =>
        simp only [formatDisplayValue, JSValue.truthy, JSValue.isZero, Bool.not_false,
          Bool.not_true, Bool.and_false, Bool.false_eq_true, if_false]
        split_ifs <;> rfl
      | _ => simp [JSValue.isZero] at hzero
    | _ => simp [JSValue.isZero] at hzero
  · intro hshown hdate
    have h : (!value.truthy && !value.isZero) = false := by
      cases h1 : value.truthy <;> cases h2 : value.isZero <;> simp_all
    cases fieldName with
    | none => simp [formatDisplayValue, h]
    | some f =>
      simp only [formatDisplayValue, h, Bool.false_eq_true, if_false]
      have hesc : ∀ r : Except JSError String,
          (do let s ← r; pure (escapeHtml s) : Except JSError String) ≠ .ok notSet := by
        intro r
        cases r with
        | error e => intro h; cases h
        | ok s => intro h; injection h with h; exact escapeHtml_ne_notSet s h
      split_ifs
      · cases hd : newDate br value with
        | error e => intro h; cases h
        | ok d =>
          cases d with
          | none => exact hesc _
          | some t => intro h; injection h with h; exact hdate t h
      · exact hesc _

/-- C10 as amended, instances: `null` on any field is the placeholder; the string `High`
on `severity` is not. -/
theorem formatDisplayValue_placeholder_witness :
    formatDisplayValue sampleBrowser .null (some "severity") = .ok notSet ∧
    formatDisplayValue sampleBrowser (.number (.zero true)) (some "start_date") =
      .ok "1/1/1970" ∧
    formatDisplayValue sampleBrowser (.string "High") (some "severity") ≠ .ok notSet :=
  ⟨(formatDisplayValue_placeholder sampleBrowser .null (some "severity")).1 rfl rfl,
   (formatDisplayValue_placeholder sampleBrowser (.number (.zero true))
      (some "start_date")).2.2.1 rfl "start_date" rfl,
   (formatDisplayValue_placeholder sampleBrowser (.string "High") (some "severity")).2.2.2
      (by decide) (by intro t; simp only [sampleBrowser]; split_ifs <;> decide)⟩

/-! ### The service options -/

theorem readServices_of_not_hasServices (body : JSValue) (h : hasServices body = false) :
    readServices body = .ok none ∨ ∃ e, readServices body = .error e := by
  unfold hasServices hasTruthy at h
  cases h1 : body.get "success" with
  | error e => exact Or.inr ⟨e, by simp [readServices, h1]⟩
  | ok success =>
    cases hs : success.truthy with
    | false => left; simp [readServices, h1, hs]
    | true =>
      cases h2 : body.get "data" with
      | error e => right; exact ⟨e, by simp [readServices, h1, h2, hs]⟩
      | ok inner =>
        cases hi : inner.truthy with
        | false => left; simp [readServices, h1, h2, hs, hi]
        | true =>
          cases h3 : inner.get "services" with
          | error e => right; exact ⟨e, by simp [readServices, h1, h2, h3, hs, hi]⟩
          | ok services =>
            cases hv : services.truthy with
            | false => left; simp [readServices, h1, h2, h3, hs, hi, hv]
            | true => simp [h1, h2, h3, hs, hi, hv] at h

/-- C7: when the services request fails (the fetch throws, the response is not OK, the
body is not JSON, or the parsed body lacks a truthy `success`, `data` or `data.services`),
`loadServices` ends with `servicesCache` set to the five fallback entries, values 1 to 5,
in the documented order: the cache is neither `null` nor empty, and apart from the cache
and the recorded request the editor is untouched. -/
theorem loadServices_fallback (st : State) (out : FetchOutcome)
    (h : servicesUnavailable out = true) :
    (loadServices st out).servicesCache = some
      [ ⟨.number (.other "1"), .string "Penetration Testing", .string "Penetration Testing"⟩,
        ⟨.number (.other "2"), .string "Vulnerability Assessment",
          .string "Vulnerability Assessment"⟩,
        ⟨.number (.other "3"), .string "Code Review", .string "Code Review"⟩,
        ⟨.number (.other "4"), .string "Security Audit", .string "Security Audit"⟩,
        ⟨.number (.other "5"), .string "Red Team Assessment", .string "Red Team Assessment"⟩ ] ∧
    (loadServices st out).servicesCache = some fallbackServices ∧
    fallbackServices.length = 5 ∧
    (loadServices st out).servicesCache ≠ none ∧
    (loadServices st out).servicesCache ≠ some [] ∧
    (loadServices st out).requests = st.requests ++ [servicesRequest st] ∧
    (loadServices st out).activeEditors = st.activeEditors := by
  have key : loadServices st out =
      setFallbackServices { st with requests := st.requests ++ [servicesRequest st] } := by
    cases out with
    | failed e => rfl
    | response r =>
      simp only [servicesUnavailable, Bool.or_eq_true, Bool.not_eq_true'] at h
      simp only [loadServices]
      cases hok : r.ok with
      | false => simp
      | true =>
        simp only [hok, Bool.true_eq_false, false_or] at h
        simp only [if_true]
        cases hj : r.json with
        | error e => rfl
        | ok body =>
          rw [hj] at h
          simp only [Bool.not_eq_true'] at h
          rcases readServices_of_not_hasServices body h with h1 | ⟨e, h1⟩ <;> simp only [h1]
  rw [key]
  refine ⟨rfl, rfl, rfl, ?_, ?_, rfl, rfl⟩
  · simp [setFallbackServices]
  · simp [setFallbackServices, fallbackServices]

/-- C7, instances: a network error, a 500 response, and an OK body without
`data.services`. -/
theorem loadServices_fallback_witness :
    (loadServices (newInlineEditor none none "" none (fun _ => ⟨none, none, none, none, .markup ""⟩))
      (.failed ⟨"TypeError", "Failed to fetch"⟩)).servicesCache = some fallbackServices ∧
    (loadServices (newInlineEditor none none "" none (fun _ => ⟨none, none, none, none, .markup ""⟩))
      (.response ⟨200, "OK", .ok (.object [("success", .bool true),
        ("data", .object [])])⟩)).servicesCache = some fallbackServices :=
  ⟨(loadServices_fallback _ (.failed ⟨"TypeError", "Failed to fetch"⟩) rfl).2.1,
   (loadServices_fallback _ (.response ⟨200, "OK", .ok (.object [("success", .bool true),
        ("data", .object [])])⟩) (by decide)).2.1⟩

/-! ### Saving -/

/-- C6 fails: a response that is OK but whose body is not JSON makes `saveField` fail
although the transport did not throw and the response is OK. -/
theorem saveField_fails_on_unparsable_body :
    (saveField sampleEditor (some "vulnerability") (some "7") (some "severity") "High"
      (.response ⟨200, "OK", .error ⟨"SyntaxError", "Unexpected token < in JSON at position 0"⟩⟩)).2
      = .error ⟨"SyntaxError", "Unexpected token < in JSON at position 0"⟩ ∧
    (Response.mk 200 "OK"
      (.error ⟨"SyntaxError", "Unexpected token < in JSON at position 0"⟩)).ok = true := by
  constructor <;> rfl

/-- C6 as amended: `saveField` sends one PATCH to
`baseUrl/modelType/modelId/edit-field/` with the body `{field, value}` and changes nothing
else; it fails exactly when the transport throws (with that error), the response is not
OK (with the message `HTTP <status>: <statusText>`), or the body of an OK response cannot
be parsed (with the error of the parser); otherwise it returns the parsed body as it
is. -/
theorem saveField_spec (st : State) (modelType modelId fieldName value : String)
    (out : FetchOutcome) :
    (saveField st (some modelType) (some modelId) (some fieldName) value out).1 =
      { st with requests := st.requests ++
          [⟨"PATCH", st.baseUrl ++ "/" ++ modelType ++ "/" ++ modelId ++ "/edit-field/",
            [("Content-Type", "application/json"), ("X-CSRFToken", st.csrfToken.getD "null"),
             ("X-Requested-With", "XMLHttpRequest")],
            some [("field", .string fieldName), ("value", .string value)]⟩] } ∧
    ((∃ e, (saveField st (some modelType) (some modelId) (some fieldName) value out).2
          = .error e) ↔
      ((∃ e, out = .failed e) ∨
        ∃ r, out = .response r ∧ (r.ok = false ∨ ∃ e, r.json = .error e))) ∧
    (∀ e, out = .failed e →
      (saveField st (some modelType) (some modelId) (some fieldName) value out).2
        = .error e) ∧
    (∀ r, out = .response r → r.ok = false →
      (saveField st (some modelType) (some modelId) (some fieldName) value out).2
        = .error ⟨"Error", "HTTP " ++ toString r.status ++ ": " ++ r.statusText⟩) ∧
    (∀ r, out = .response r → r.ok = true →
      (saveField st (some modelType) (some modelId) (some fieldName) value out).2
        = r.json) := by
  refine ⟨?_, ?_, ?_, ?_, ?_⟩
  · cases out with
    | failed e => rfl
    | response r => simp only [saveField]; split_ifs <;> rfl
  · cases out with
    | failed e => simp [saveField]
    | response r =>
      simp only [saveField]
      cases hok : r.ok with
      | false => simp [hok]
      | true =>
        simp only [Bool.not_true, Bool.false_eq_true, if_false, reduceCtorEq, exists_false,
          false_or, FetchOutcome.response.injEq, exists_eq_left', hok]
  · intro e h; subst h; rfl
  · intro r h hok; subst h; simp [saveField, hok, newError]
  · intro r h hok; subst h; simp [saveField, hok]

/-- C6 as amended, an instance: a 404 response to the PATCH for field `severity` of
vulnerability 7 makes `saveField` fail with the message `HTTP 404: Not Found`, after one
request to `/api/vulnerability/7/edit-field/`. -/
theorem saveField_spec_witness :
    (saveField sampleEditor (some "vulnerability") (some "7") (some "severity") "High"
      (.response ⟨404, "Not Found", .ok .null⟩)).2 = .error ⟨"Error", "HTTP 404: Not Found"⟩ ∧
    (saveField sampleEditor (some "vulnerability") (some "7") (some "severity") "High"
      (.response ⟨404, "Not Found", .ok .null⟩)).1.requests.map (fun q => (q.method, q.url))
      = [("PATCH", "/api/vulnerability/7/edit-field/")] :=
  ⟨(saveField_spec sampleEditor "vulnerability" "7" "severity" "High"
      (.response ⟨404, "Not Found", .ok .null⟩)).2.2.2.1 _ rfl rfl,
   by rw [(saveField_spec sampleEditor "vulnerability" "7" "severity" "High"
      (.response ⟨404, "Not Found", .ok .null⟩)).1]; decide⟩

/-! ### The session map -/

theorem mapGet_eq_none_iff (m : List (ElemId × FormId)) (k : ElemId) :
    mapGet m k = none ↔ mapHas m k = false := by
  induction m with
  | nil => simp [mapGet, mapHas]
  | cons p ps ih =>
    obtain ⟨a, b⟩ := p
    simp only [mapGet, mapHas, List.lookup, List.any_cons] at ih ⊢
    by_cases h : k = a
    · subst h; simp
    · have h1 : (k == a) = false := by simpa using h
      have h2 : (a == k) = false := by simpa using fun e => h e.symm
      simp [h1, h2, ih]

theorem mapSet_new (m : List (ElemId × FormId)) (k : ElemId) (v : FormId)
    (h : mapHas m k = false) : mapSet m k v = m ++ [(k, v)] := by
  simp [mapSet, h]

theorem mapGet_append_self (m : List (ElemId × FormId)) (k : ElemId) (v : FormId)
    (h : mapHas m k = false) : mapGet (m ++ [(k, v)]) k = some v := by
  induction m with
  | nil => simp [mapGet, List.lookup]
  | cons p ps ih =>
    obtain ⟨a, b⟩ := p
    simp only [mapHas, List.any_cons, Bool.or_eq_false_iff] at h
    have h1 : (k == a) = false := by
      have := h.1
      simp only [beq_eq_false_iff_ne, ne_eq] at this ⊢
      exact fun e => this e.symm
    simp only [mapGet, List.cons_append, List.lookup, h1]
    exact ih h.2

theorem mapGet_append_other (m : List (ElemId × FormId)) (k other : ElemId) (v : FormId)
    (h : other ≠ k) : mapGet (m ++ [(k, v)]) other = mapGet m other := by
  induction m with
  | nil =>
    have h1 : (other == k) = false := by simpa using h
    simp [mapGet, List.lookup, h1]
  | cons p ps ih =>
    obtain ⟨a, b⟩ := p
    simp only [mapGet, List.cons_append, List.lookup] at ih ⊢
    cases (other == a) <;> simp [ih]

theorem count_append_new (m : List (ElemId × FormId)) (k : ElemId) (v : FormId)
    (h : mapHas m k = false) :
    ((m ++ [(k, v)]).filter (fun p => p.1 == k)).length = 1 := by
  have h1 : m.filter (fun p => p.1 == k) = [] := by
    rw [List.filter_eq_nil_iff]
    intro p hp hpk
    have : mapHas m k = true := by
      simp only [mapHas, List.any_eq_true]
      exact ⟨p, hp, hpk⟩
    rw [h] at this
    exact Bool.false_ne_true this
  simp [List.filter_append, h1]

theorem keys_nodup_append (m : List (ElemId × FormId)) (k : ElemId) (v : FormId)
    (h : mapHas m k = false) (hm : (m.map Prod.fst).Nodup) :
    ((m ++ [(k, v)]).map Prod.fst).Nodup := by
  rw [List.map_append, List.nodup_append]
  refine ⟨hm, by simp, ?_⟩
  intro a ha hb
  simp only [List.map_cons, List.map_nil, List.mem_singleton] at hb
  subst hb
  obtain ⟨p, hp, hpa⟩ := List.mem_map.mp ha
  have : mapHas m a = true := by
    simp only [mapHas, List.any_eq_true]
    exact ⟨p, hp, by simp [hpa]⟩
  rw [h] at this
  exact Bool.false_ne_true this

theorem mapHas_delete (m : List (ElemId × FormId)) (k : ElemId) :
    mapHas (mapDelete m k) k = false := by
  simp only [mapHas, mapDelete, List.any_eq_false, List.mem_filter]
  intro p hp
  simpa using hp.2

theorem mapGet_delete_other (m : List (ElemId × FormId)) (k other : ElemId) (h : other ≠ k) :
    mapGet (mapDelete m k) other = mapGet m other := by
  induction m with
  | nil => rfl
  | cons p ps ih =>
    obtain ⟨a, b⟩ := p
    simp only [mapGet, mapDelete, List.filter, List.lookup] at ih ⊢
    by_cases hak : a = k
    · subst hak
      have h1 : (other == a) = false := by simpa using h
      simp [h1, ih]
    · have h2 : (a == k) = false := by simpa using hak
      simp only [h2, Bool.not_false, List.lookup]
      cases (other == a) <;> simp [ih]

theorem keys_nodup_delete (m : List (ElemId × FormId)) (k : ElemId)
    (hm : (m.map Prod.fst).Nodup) : ((mapDelete m k).map Prod.fst).Nodup := by
  unfold mapDelete
  exact List.Nodup.sublist (List.Sublist.map _ (List.filter_sublist m)) hm

theorem mapDelete_of_not_has (m : List (ElemId × FormId)) (k : ElemId)
    (h : mapHas m k = false) : mapDelete m k = m := by
  simp only [mapHas, List.any_eq_false] at h
  simp only [mapDelete, List.filter_eq_self]
  intro p hp
  simpa using h p hp

/-! ### Building the editor -/

/-- What every successful `createEditor` looks like: a form for this element and
configuration, stored under the next free identity of a state that differs from the given
one in its recorded requests at most. -/
theorem createEditor_ok (br : Browser) (st : State) (element : ElemId) (config : Config)
    (p : State × FormId) (h : createEditor br st element config = .ok p) :
    ∃ (reqs : List Request) (f : EditorForm),
      p = storeForm { st with requests := st.requests ++ reqs } f ∧
      f.config = config ∧ f.element = element := by
  unfold createEditor at h
  simp only at h
  split_ifs at h
  · injection h with h; exact ⟨[], _, by rw [← h, List.append_nil], rfl, rfl⟩
  · injection h with h; exact ⟨_, _, h.symm, rfl, rfl⟩
  · split at h
    · cases h
    · split at h
      · cases h
      · injection h with h; exact ⟨[], _, by rw [← h, List.append_nil], rfl, rfl⟩
  · injection h with h; exact ⟨[], _, by rw [← h, List.append_nil], rfl, rfl⟩
  · injection h with h; exact ⟨[], _, by rw [← h, List.append_nil], rfl, rfl⟩

theorem lookup_mem {α : Type} (l : List (String × α)) (k : String) (v : α)
    (h : l.lookup k = some v) : (k, v) ∈ l := by
  induction l with
  | nil => simp at h
  | cons p ps ih =>
    obtain ⟨a, b⟩ := p
    simp only [List.lookup] at h
    by_cases hk : k = a
    · subst hk
      simp only [beq_self_eq_true] at h
      injection h with h
      subst h
      exact List.mem_cons_self _ _
    · have h1 : (k == a) = false := by simpa using hk
      simp only [h1] at h
      exact List.mem_cons_of_mem _ (ih h)

theorem fieldTypes_fixed (k : String) (d : Descriptor) (hk : k ≠ "service_type")
    (h : fieldTypes.lookup k = some d) : descriptorFixed d = true := by
  have hmem := lookup_mem _ _ _ h
  have hall : ∀ p ∈ fieldTypes, p.1 = "service_type" ∨ descriptorFixed p.2 = true := by
    simp only [fieldTypes, List.mem_cons, List.mem_singleton, List.not_mem_nil, or_false]
    intro p hp
    rcases hp with hp | hp | hp | hp | hp | hp | hp | hp | hp | hp <;> subst hp
    all_goals first
      | exact Or.inl rfl
      | exact Or.inr (by decide)
  rcases hall _ hmem with h1 | h1
  · exact absurd h1 hk
  · exact h1

theorem buildOption_fixed (fieldName : Option String) (currentValue : String)
    (o : OptionEntry) (hf : fieldName ≠ some "service_type") (ho : entryFixed o = true) :
    ∃ opt, buildOption fieldName currentValue o = .ok opt := by
  obtain ⟨value, label, name⟩ := o
  cases value <;> cases label <;> simp [entryFixed] at ho
  simp [buildOption, JSValue.toStr, domText, hf]

theorem mapM_buildOption_fixed (fieldName : Option String) (currentValue : String)
    (entries : List OptionEntry) (hf : fieldName ≠ some "service_type")
    (h : entries.all entryFixed = true) :
    ∃ opts, mapAll (buildOption fieldName currentValue) entries = .ok opts := by
  induction entries with
  | nil => exact ⟨[], rfl⟩
  | cons o os ih =>
    simp only [List.all_cons, Bool.and_eq_true] at h
    obtain ⟨opt, hopt⟩ := buildOption_fixed fieldName currentValue o hf h.1
    obtain ⟨opts, hopts⟩ := ih h.2
    exact ⟨opt :: opts, by simp [mapAll, hopt, hopts]⟩

/-- `createEditor` returns for every field other than `service_type`. -/
theorem createEditor_total (br : Browser) (st : State) (element : ElemId) (config : Config)
    (hf : config.fieldName ≠ some "service_type") :
    ∃ p, createEditor br st element config = .ok p := by
  have hdesc : ∀ d, getInputType st config.fieldName config.modelType = .descriptor d →
      descriptorFixed d = true := by
    intro d hd
    unfold getInputType at hd
    rw [if_neg hf] at hd
    split at hd
    · rename_i d1 hlook
      injection hd with hd
      subst hd
      refine fieldTypes_fixed _ _ ?_ hlook
      intro hk
      apply hf
      cases hfn : config.fieldName with
      | none => rw [hfn] at hk; simp [templateStr] at hk
      | some f => rw [hfn] at hk; simp only [templateStr, Option.getD_some] at hk; rw [hk]
    · split_ifs at hd
      injection hd with hd
      subst hd
      rfl
  unfold createEditor
  simp only
  split_ifs with h1 h2 h3 h4
  · exact ⟨_, rfl⟩
  · simp only [Bool.and_eq_true, decide_eq_true_eq] at h3
    exact absurd h3.2 hf
  · cases hit : getInputType st config.fieldName config.modelType with
    | inherited key => rw [hit] at h2; simp [InputType.type] at h2
    | descriptor d =>
      have hd := hdesc d hit
      rw [hit] at h2
      simp only [InputType.type, Option.some.injEq] at h2
      simp only [descriptorFixed, h2, bne_self_eq_false, Bool.false_or, Bool.and_eq_true] at hd
      simp only [InputType.options]
      cases hopt : d.options with
      | none => rw [hopt] at hd; simp at hd
      | some entries =>
        rw [hopt] at hd
        obtain ⟨opts, hopts⟩ :=
          mapM_buildOption_fixed config.fieldName config.currentValue entries hf hd.2
        simp only [hopts]
        exact ⟨_, rfl⟩
  · exact ⟨_, rfl⟩
  · exact ⟨_, rfl⟩

theorem loadServices_frame (st : State) (out : FetchOutcome) :
    (loadServices st out).activeEditors = st.activeEditors ∧
    (loadServices st out).elements = st.elements ∧
    (loadServices st out).forms = st.forms ∧
    (loadServices st out).nextForm = st.nextForm := by
  cases out with
  | failed e => exact ⟨rfl, rfl, rfl, rfl⟩
  | response r =>
    simp only [loadServices]
    split_ifs
    · split
      · exact ⟨rfl, rfl, rfl, rfl⟩
      · split <;> exact ⟨rfl, rfl, rfl, rfl⟩
    · exact ⟨rfl, rfl, rfl, rfl⟩

/-- The shape of `startEditing` on an element without an editor: how the call ends when
`createEditor` returns a form, and when it throws. -/
theorem startEditing_new (br : Browser) (st : State) (element : ElemId)
    (services : FetchOutcome) (h : mapHas st.activeEditors element = false) :
    ((startEditing br st element services).thrown = none ∧
      (startEditing br st element services).state.activeEditors =
        st.activeEditors ++ [(element, st.nextForm)] ∧
      (∀ i, i ≠ st.nextForm →
        (startEditing br st element services).state.forms i = st.forms i) ∧
      ((startEditing br st element services).state.forms st.nextForm).element = element ∧
      ((startEditing br st element services).state.forms st.nextForm).config =
        ⟨(st.elements element).model, (st.elements element).id, (st.elements element).field,
          readCurrentValue br st (st.elements element)⟩ ∧
      ((startEditing br st element services).state.elements element).content =
        .editor st.nextForm ∧
      (∀ other, other ≠ element →
        (startEditing br st element services).state.elements other = st.elements other)) ∨
    ((startEditing br st element services).thrown ≠ none ∧
      (st.elements element).field = some "service_type" ∧
      (startEditing br st element services).state = loadServices st services) := by
  unfold startEditing
  simp only [h, Bool.false_eq_true, if_false]
  generalize hst1 : (if (st.elements element).field = some "service_type"
    then loadServices st services else st) = st1
  have hframe : st1.activeEditors = st.activeEditors ∧ st1.elements = st.elements ∧
      st1.forms = st.forms ∧ st1.nextForm = st.nextForm := by
    rw [← hst1]
    split_ifs
    · exact loadServices_frame st services
    · exact ⟨rfl, rfl, rfl, rfl⟩
  obtain ⟨ha, he, hfo, hn⟩ := hframe
  cases hc : createEditor br st1 element
      ⟨(st.elements element).model, (st.elements element).id, (st.elements element).field,
        readCurrentValue br st (st.elements element)⟩ with
  | error err =>
    right
    refine ⟨by simp, ?_, ?_⟩
    · by_contra hf
      obtain ⟨p, hp⟩ := createEditor_total br st1 element
        ⟨(st.elements element).model, (st.elements element).id, (st.elements element).field,
          readCurrentValue br st (st.elements element)⟩ hf
      rw [hp] at hc
      cases hc
    · by_cases hf : (st.elements element).field = some "service_type"
      · rw [if_pos hf] at hst1; exact hst1.symm
      · exfalso
        obtain ⟨p, hp⟩ := createEditor_total br st1 element
          ⟨(st.elements element).model, (st.elements element).id, (st.elements element).field,
            readCurrentValue br st (st.elements element)⟩ hf
        rw [hp] at hc
        cases hc
  | ok p =>
    left
    obtain ⟨reqs, f, hp, hcfg, hel⟩ := createEditor_ok br st1 element _ p hc
    subst hp
    have hhas : mapHas st1.activeEditors element = false := by rw [ha]; exact h
    simp only [storeForm, State.setForm, State.setElement, mapSet, hhas, Bool.false_eq_true,
      if_false, ha, hn, he, hfo, h, true_and]
    refine ⟨?_, ?_, ?_, ?_, ?_⟩
    · intro i hi; simp [hi]
    · simp [hel]
    · simp [hcfg]
    · simp
    · intro other ho; simp [ho]

/-- C1: on an element that is not a key of `activeEditors`, a `startEditing` that
completes leaves the map with exactly one entry for the element, appended to the old
entries: the size grows by one, every other key keeps its editor, and every other editor
form is as it was; the call does complete on every field other than `service_type` (and
when it throws, the map is as before).  On an element that is a key, `startEditing`
changes nothing.  Hence a map with at most one editor per element stays so. -/
theorem startEditing_session (br : Browser) (st : State) (element : ElemId)
    (services : FetchOutcome) :
    (mapHas st.activeEditors element = false →
      (startEditing br st element services).thrown = none →
        (startEditing br st element services).state.activeEditors =
          st.activeEditors ++ [(element, st.nextForm)] ∧
        (startEditing br st element services).state.activeEditors.length =
          st.activeEditors.length + 1 ∧
        ((startEditing br st element services).state.activeEditors.filter
          (fun p => p.1 == element)).length = 1 ∧
        mapGet (startEditing br st element services).state.activeEditors element =
          some st.nextForm ∧
        (∀ other, other ≠ element →
          mapGet (startEditing br st element services).state.activeEditors other =
            mapGet st.activeEditors other) ∧
        (∀ i, i ≠ st.nextForm →
          (startEditing br st element services).state.forms i = st.forms i)) ∧
    (mapHas st.activeEditors element = false →
      (st.elements element).field ≠ some "service_type" →
        (startEditing br st element services).thrown = none) ∧
    (mapHas st.activeEditors element = false →
      (startEditing br st element services).thrown ≠ none →
        (startEditing br st element services).state.activeEditors = st.activeEditors) ∧
    (mapHas st.activeEditors element = true →
      (startEditing br st element services).thrown = none ∧
      (startEditing br st element services).state = st) ∧
    ((st.activeEditors.map Prod.fst).Nodup →
      ((startEditing br st element services).state.activeEditors.map Prod.fst).Nodup) := by
  refine ⟨?_, ?_, ?_, ?_, ?_⟩
  · intro h hdone
    rcases startEditing_new br st element services h with h1 | h1
    · obtain ⟨_, hmap, hforms, _⟩ := h1
      rw [hmap]
      exact ⟨rfl, by simp, count_append_new _ _ _ h, mapGet_append_self _ _ _ h,
        fun other ho => mapGet_append_other _ _ _ _ ho, hforms⟩
    · exact absurd hdone h1.1
  · intro h hf
    rcases startEditing_new br st element services h with h1 | h1
    · exact h1.1
    · exact absurd h1.2.1 hf
  · intro h hthrown
    rcases startEditing_new br st element services h with h1 | h1
    · exact absurd h1.1 hthrown
    · rw [h1.2.2]; exact (loadServices_frame st services).1
  · intro h
    simp [startEditing, h]
  · intro hnodup
    cases h : mapHas st.activeEditors element with
    | true => simp [startEditing, h, hnodup]
    | false =>
      rcases startEditing_new br st element services h with h1 | h1
      · rw [h1.2.1]; exact keys_nodup_append _ _ _ h hnodup
      · rw [h1.2.2, (loadServices_frame st services).1]; exact hnodup

/-- C1, instances: a click on the `severity` element of the sample page opens its editor
as form 0; a second click changes nothing; a click on a `service_type` element after the
server listed a service without an id throws and opens nothing. -/
theorem startEditing_session_witness :
    (startEditing sampleBrowser sampleEditor 0 offline).state.activeEditors = [(0, 0)] ∧
    (startEditing sampleBrowser sampleEditing 0 offline).state = sampleEditing ∧
    (startEditing sampleBrowser sampleEditor 1 offline).thrown = none ∧
    (startEditing sampleBrowser
      (newInlineEditor none none "" none servicePage) 0 serviceWithoutId).state.activeEditors
      = [] ∧
    ((startEditing sampleBrowser sampleEditing 1 offline).state.activeEditors.map
      Prod.fst).Nodup :=
  ⟨((startEditing_session sampleBrowser sampleEditor 0 offline).1 rfl rfl).1,
   ((startEditing_session sampleBrowser sampleEditing 0 offline).2.2.2.1 rfl).2,
   (startEditing_session sampleBrowser sampleEditor 1 offline).2.1 rfl (by decide),
   (startEditing_session sampleBrowser (newInlineEditor none none "" none servicePage) 0
      serviceWithoutId).2.2.1 rfl (by decide),
   (startEditing_session sampleBrowser sampleEditing 1 offline).2.2.2.2 (by decide)⟩

/-! ### Ending an edit -/

/-- A string is formatted without an exception on every field that has a name. -/
theorem formatDisplayValue_string_total (br : Browser) (s fieldName : String) :
    ∃ html, formatDisplayValue br (.string s) (some fieldName) = .ok html := by
  unfold formatDisplayValue
  by_cases h0 : (!(JSValue.string s).truthy && !(JSValue.string s).isZero) = true
  · exact ⟨notSet, by rw [if_pos h0]⟩
  · rw [if_neg h0]
    by_cases h1 : includes fieldName "date" = true
    · cases h : br.parseDate s with
      | none =>
        exact ⟨escapeHtml s, by
          simp [h1, newDate, h, JSValue.callToString, JSValue.toStr, bind, Except.bind, pure,
            Except.pure]⟩
      | some t =>
        exact ⟨br.toLocaleDateString t, by
          simp [h1, newDate, h, bind, Except.bind, pure, Except.pure]⟩
    · exact ⟨escapeHtml s, by
        simp [h1, JSValue.callToString, JSValue.toStr, bind, Except.bind, pure, Except.pure]⟩

theorem cancelEditing_requests (br : Browser) (st : State) (element : ElemId) :
    (cancelEditing br st element).state.requests = st.requests := by
  unfold cancelEditing
  cases mapGet st.activeEditors element with
  | none => rfl
  | some editor =>
    simp only
    cases formatDisplayValue br (.string (st.forms editor).config.currentValue)
      (st.forms editor).config.fieldName <;> rfl

/-- When a string is formatted without an exception: on a field that has a name, and, the
placeholder being returned before the name is looked at, when the string is empty. -/
theorem formatDisplayValue_string_ok_iff (br : Browser) (s : String)
    (fieldName : Option String) :
    (∃ html, formatDisplayValue br (.string s) fieldName = .ok html) ↔
      (fieldName.isSome = true ∨ s = "") := by
  cases fieldName with
  | some f => simp [formatDisplayValue_string_total br s f]
  | none =>
    by_cases hs : s = ""
    · subst hs
      simp only [Option.isSome_none, Bool.false_eq_true, false_or, iff_true]
      exact ⟨notSet, rfl⟩
    · have he : s.isEmpty = false := (isEmpty_eq_false_iff s).mpr hs
      simp [formatDisplayValue, JSValue.truthy, JSValue.isZero, he, hs]

/-- The same for a captured configuration. -/
theorem formats_of_shown (br : Browser) (config : Config)
    (h : (config.fieldName.isSome || config.currentValue.isEmpty) = true) :
    ∃ html, formatDisplayValue br (.string config.currentValue) config.fieldName
      = .ok html := by
  rw [formatDisplayValue_string_ok_iff]
  rw [Bool.or_eq_true] at h
  rcases h with h | h
  · exact Or.inl h
  · exact Or.inr ((String.isEmpty_iff _).mp h)

/-- C2 fails: the editor opened on an element without `data-field` has no field name, and
cancelling it throws at `fieldName.includes`: the element keeps the editor and the map
keeps the entry. -/
theorem cancelEditing_throws_without_field :
    mapGet fieldlessEditing.activeEditors 0 = some 0 ∧
    (fieldlessEditing.forms 0).config = ⟨some "vulnerability", some "7", none, "Medium"⟩ ∧
    (cancelEditing sampleBrowser fieldlessEditing 0).thrown =
      some ⟨"TypeError", "Cannot read properties of undefined (reading 'includes')"⟩ ∧
    (cancelEditing sampleBrowser fieldlessEditing 0).state.activeEditors = [(0, 0)] ∧
    ((cancelEditing sampleBrowser fieldlessEditing 0).state.elements 0).content =
      .editor 0 := by
  decide

/-- C2 as amended: on an element with an active editor whose captured configuration has a
field name or an empty `currentValue`, which is exactly when
`formatDisplayValue(currentValue, fieldName)` returns, `cancelEditing` assigns that result
to the `innerHTML` of the element and deletes the entry of the element, leaving every
other entry, every other element and the `dataset` of the element as they were; on an
element without an active editor it changes nothing. -/
theorem cancelEditing_spec (br : Browser) (st : State) (element : ElemId) :
    (∀ editor html, mapGet st.activeEditors element = some editor →
      formatDisplayValue br (.string (st.forms editor).config.currentValue)
        (st.forms editor).config.fieldName = .ok html →
        (cancelEditing br st element).thrown = none ∧
        ((cancelEditing br st element).state.elements element).content = .markup html ∧
        (cancelEditing br st element).state.elements element =
          { st.elements element with content := .markup html } ∧
        (cancelEditing br st element).state.activeEditors =
          st.activeEditors.filter (fun p => !(p.1 == element)) ∧
        mapHas (cancelEditing br st element).state.activeEditors element = false ∧
        mapGet (cancelEditing br st element).state.activeEditors element = none ∧
        (∀ other, other ≠ element →
          mapGet (cancelEditing br st element).state.activeEditors other =
            mapGet st.activeEditors other ∧
          (cancelEditing br st element).state.elements other = st.elements other)) ∧
    (∀ editor fieldName, mapGet st.activeEditors element = some editor →
      (st.forms editor).config.fieldName = some fieldName →
        ∃ html, formatDisplayValue br (.string (st.forms editor).config.currentValue)
          (st.forms editor).config.fieldName = .ok html) ∧
    (mapGet st.activeEditors element = none →
      (cancelEditing br st element).thrown = none ∧
      (cancelEditing br st element).state = st) ∧
    (∀ editor, mapGet st.activeEditors element = some editor →
      ((∃ html, formatDisplayValue br (.string (st.forms editor).config.currentValue)
          (st.forms editor).config.fieldName = .ok html) ↔
        ((st.forms editor).config.fieldName.isSome = true ∨
          (st.forms editor).config.currentValue = ""))) := by
  refine ⟨?_, ?_, ?_, fun editor _ => formatDisplayValue_string_ok_iff br _ _⟩
  · intro editor html hget hfmt
    have hdel := mapHas_delete st.activeEditors element
    simp only [cancelEditing, hget, hfmt, State.setInnerHTML, State.setElement, if_true,
      true_and]
    refine ⟨rfl, hdel, (mapGet_eq_none_iff _ _).mpr hdel, ?_⟩
    intro other ho
    exact ⟨mapGet_delete_other _ _ _ ho, by simp [ho]⟩
  · intro editor fieldName _ hf
    rw [hf]
    exact formatDisplayValue_string_total br _ fieldName
  · intro hget
    simp [cancelEditing, hget]

/-- C2 as amended, instances: cancelling the editor of element 0 of the sample page shows
`Medium` again and empties the map; cancelling element 1, which has no editor, changes
nothing. -/
theorem cancelEditing_spec_witness :
    ((cancelEditing sampleBrowser sampleEditing 0).state.elements 0).content
      = .markup "Medium" ∧
    (cancelEditing sampleBrowser sampleEditing 0).state.activeEditors = [] ∧
    (cancelEditing sampleBrowser sampleEditing 1).state = sampleEditing :=
  ⟨((cancelEditing_spec sampleBrowser sampleEditing 0).1 0 "Medium" rfl rfl).2.1,
   ((cancelEditing_spec sampleBrowser sampleEditing 0).1 0 "Medium" rfl rfl).2.2.2.1,
   ((cancelEditing_spec sampleBrowser sampleEditing 1).2.2.1 rfl).2⟩

/-! ### Submitting -/

/-- C3: when the value of the input equals the captured `currentValue`,
`handleFormSubmission` is `cancelEditing` on the element of the form, with the same final
state and the same outcome, and no request is sent. -/
theorem handleFormSubmission_unchanged (br : Browser) (st : State) (form : FormId)
    (out : FetchOutcome)
    (h : (st.forms form).inputValue = (st.forms form).config.currentValue) :
    handleFormSubmission br st form out = cancelEditing br st (st.forms form).element ∧
    (handleFormSubmission br st form out).state.requests = st.requests := by
  have h1 : handleFormSubmission br st form out =
      cancelEditing br st (st.forms form).element := by
    simp [handleFormSubmission, h]
  exact ⟨h1, by rw [h1]; exact cancelEditing_requests br st _⟩

/-- C3, an instance: submitting the editor of the sample page as it was opened (the
select still on `Medium`) sends nothing and restores the display. -/
theorem handleFormSubmission_unchanged_witness :
    (handleFormSubmission sampleBrowser sampleEditing 0 offline).state.requests = [] ∧
    handleFormSubmission sampleBrowser sampleEditing 0 offline =
      cancelEditing sampleBrowser sampleEditing 0 :=
  ⟨(handleFormSubmission_unchanged sampleBrowser sampleEditing 0 offline rfl).2,
   (handleFormSubmission_unchanged sampleBrowser sampleEditing 0 offline rfl).1⟩

theorem showNotification_frame (st : State) (message type : String) :
    (showNotification st message type).requests = st.requests ∧
    (showNotification st message type).activeEditors = st.activeEditors ∧
    (showNotification st message type).elements = st.elements ∧
    (showNotification st message type).forms = st.forms ∧
    (showNotification st message type).events = st.events ∧
    (showNotification st message type).showNotifications = st.showNotifications := by
  unfold showNotification
  split_ifs <;> exact ⟨rfl, rfl, rfl, rfl, rfl, rfl⟩

theorem applySaved_requests (br : Browser) (st : State) (element : ElemId) (config : Config)
    (result : JSValue) :
    (applySaved br st element config result).1.requests = st.requests := by
  unfold applySaved
  cases result.get "data" with
  | error e => rfl
  | ok data =>
    simp only
    cases data.get "value" with
    | error e => rfl
    | ok value =>
      simp only
      cases value.toStr with
      | error e => rfl
      | ok stored =>
        simp only
        cases data.get "formatted_value" with
        | error e => rfl
        | ok formatted =>
          simp only
          cases formatDisplayValue br formatted config.fieldName with
          | error e => rfl
          | ok html =>
            simp only [State.dispatch]
            split_ifs
            · exact (showNotification_frame _ _ _).1
            · rfl

theorem trySave_requests (br : Browser) (st : State) (element : ElemId) (config : Config)
    (newValue : String) (out : FetchOutcome) :
    (trySave br st element config newValue out).1.requests =
      st.requests ++ [saveRequest st config.modelType config.modelId config.fieldName newValue] := by
  have hsave : (saveField st config.modelType config.modelId config.fieldName newValue out).1
      = { st with requests := st.requests ++
          [saveRequest st config.modelType config.modelId config.fieldName newValue] } := by
    cases out with
    | failed e => rfl
    | response r => simp only [saveField]; split_ifs <;> rfl
  unfold trySave
  generalize hsf : saveField st config.modelType config.modelId config.fieldName newValue out
    = sf at hsave
  obtain ⟨st1, res⟩ := sf
  simp only at hsave
  subst hsave
  cases res with
  | error e => rfl
  | ok result =>
    simp only
    cases result.get "success" with
    | error e => rfl
    | ok success =>
      simp only
      split_ifs
      · rw [applySaved_requests]
      · cases result.get "message" with
        | error e => rfl
        | ok message =>
          simp only
          cases (message.or (.string "Save failed")).toStr <;> rfl

theorem saveFailed_requests (st : State) (form : FormId) (element : ElemId) (config : Config)
    (originalText : String) (error : JSError) :
    (saveFailed st form element config originalText error).requests = st.requests := by
  simp only [saveFailed, State.dispatch, State.setForm]
  split_ifs <;> first | exact (showNotification_frame _ _ _).1 | rfl

/-- Every submission of a changed value sends exactly one request, the PATCH of
`saveField`. -/
theorem handleFormSubmission_requests (br : Browser) (st : State) (form : FormId)
    (out : FetchOutcome)
    (hchanged : (st.forms form).inputValue ≠ (st.forms form).config.currentValue) :
    (handleFormSubmission br st form out).state.requests =
      st.requests ++ [saveRequest st (st.forms form).config.modelType
        (st.forms form).config.modelId (st.forms form).config.fieldName
        (st.forms form).inputValue] := by
  unfold handleFormSubmission
  simp only [hchanged, if_false]
  have h := trySave_requests br
    (st.setForm form { st.forms form with saveText := "Saving...", saveDisabled := true })
    (st.forms form).element (st.forms form).config (st.forms form).inputValue out
  generalize trySave br
    (st.setForm form { st.forms form with saveText := "Saving...", saveDisabled := true })
    (st.forms form).element (st.forms form).config (st.forms form).inputValue out = ts at h
  obtain ⟨st2, thrown⟩ := ts
  cases thrown with
  | none => exact h
  | some error =>
    simp only
    rw [saveFailed_requests]
    exact h

/-- C4 fails: on the editor without a field name, a changed value is sent in a body with
the one member `value` and answered with
`{success: true, data: {value: "High", formatted_value: "High"}}`; the `data-value` is
written, then `formatDisplayValue` throws at `fieldName.includes`, so the element keeps the
editor, the map keeps the entry, and the event dispatched is `inlineEditError`. -/
theorem handleFormSubmission_success_without_field :
    (fieldlessChanged.forms 0).inputValue ≠ (fieldlessChanged.forms 0).config.currentValue ∧
    (fieldlessChanged.forms 0).config.fieldName = none ∧
    (handleFormSubmission sampleBrowser fieldlessChanged 0 savedHigh).state.requests.map
      (fun q => (q.method, q.url, q.body.map (fun b => b.map Prod.fst))) =
        [("PATCH", "/api/vulnerability/7/edit-field/", some ["value"])] ∧
    ((handleFormSubmission sampleBrowser fieldlessChanged 0 savedHigh).state.elements 0).value
      = some "High" ∧
    ((handleFormSubmission sampleBrowser fieldlessChanged 0 savedHigh).state.elements
      0).content = .editor 0 ∧
    (handleFormSubmission sampleBrowser fieldlessChanged 0 savedHigh).state.activeEditors
      = [(0, 0)] ∧
    (handleFormSubmission sampleBrowser fieldlessChanged 0 savedHigh).state.events.map
      (fun e => (e.target, e.type)) = [(0, "inlineEditError")] := by
  decide

/-- C4 as amended: a submission of a changed value sends exactly one PATCH to
`baseUrl/modelType/modelId/edit-field/` with the body `{field, value}`, the member `field`
being there when the editor has a field name; and when the response is OK with a body
`{success: true, data: {value, formatted_value}}` and
`formatDisplayValue(formatted_value, fieldName)` returns, as it does whenever the editor has
a field name and `formatted_value` is a string, the `data-value` of the element becomes
`value` (as a string), its content becomes `formatDisplayValue(formatted_value, fieldName)`,
its entry leaves `activeEditors`, and one `inlineEditSuccess` event carrying the field, the
captured `currentValue` and `value` is dispatched on it (with a success notification when
notifications are on). -/
theorem handleFormSubmission_success (br : Browser) (st : State) (form : FormId)
    (out : FetchOutcome)
    (hchanged : (st.forms form).inputValue ≠ (st.forms form).config.currentValue) :
    (handleFormSubmission br st form out).state.requests =
      st.requests ++
        [⟨"PATCH",
          st.baseUrl ++ "/" ++ templateStr (st.forms form).config.modelType ++ "/" ++
            templateStr (st.forms form).config.modelId ++ "/edit-field/",
          [("Content-Type", "application/json"), ("X-CSRFToken", st.csrfToken.getD "null"),
           ("X-Requested-With", "XMLHttpRequest")],
          some (saveBody (st.forms form).config.fieldName (st.forms form).inputValue)⟩] ∧
    (∀ fieldName, (st.forms form).config.fieldName = some fieldName →
      saveBody (st.forms form).config.fieldName (st.forms form).inputValue =
        [("field", .string fieldName), ("value", .string (st.forms form).inputValue)]) ∧
    (∀ r body value formatted stored html,
      out = .response r → r.ok = true → r.json = .ok body →
      SuccessBody body value formatted → value.toStr = .ok stored →
      formatDisplayValue br formatted (st.forms form).config.fieldName = .ok html →
        (handleFormSubmission br st form out).thrown = none ∧
        ((handleFormSubmission br st form out).state.elements (st.forms form).element).value
          = some stored ∧
        ((handleFormSubmission br st form out).state.elements (st.forms form).element).content
          = .markup html ∧
        mapGet (handleFormSubmission br st form out).state.activeEditors
          (st.forms form).element = none ∧
        (handleFormSubmission br st form out).state.activeEditors =
          st.activeEditors.filter (fun p => !(p.1 == (st.forms form).element)) ∧
        (handleFormSubmission br st form out).state.events =
          st.events ++ [⟨(st.forms form).element, "inlineEditSuccess",
            [("field", optValue (st.forms form).config.fieldName),
             ("oldValue", .string (st.forms form).config.currentValue),
             ("newValue", value)]⟩] ∧
        (handleFormSubmission br st form out).state.notifications =
          if st.showNotifications && st.hasNotificationContainer then
            st.notifications ++ [⟨"Field updated successfully", "success", 5000⟩]
          else st.notifications) ∧
    (∀ r body value formatted fieldName,
      out = .response r → r.ok = true → r.json = .ok body →
      SuccessBody body (.string value) (.string formatted) →
      (st.forms form).config.fieldName = some fieldName →
        ∃ html, formatDisplayValue br (.string formatted) (some fieldName) = .ok html ∧
          (handleFormSubmission br st form out).thrown = none ∧
          ((handleFormSubmission br st form out).state.elements
            (st.forms form).element).value = some value ∧
          ((handleFormSubmission br st form out).state.elements
            (st.forms form).element).content = .markup html ∧
          mapGet (handleFormSubmission br st form out).state.activeEditors
            (st.forms form).element = none ∧
          (handleFormSubmission br st form out).state.events =
            st.events ++ [⟨(st.forms form).element, "inlineEditSuccess",
              [("field", .string fieldName),
               ("oldValue", .string (st.forms form).config.currentValue),
               ("newValue", .string value)]⟩]) := by
  refine ⟨handleFormSubmission_requests br st form out hchanged,
    fun fieldName hfield => by rw [hfield]; rfl,
    (fun hmain => ⟨hmain, ?_⟩) ?_⟩
  · intro r body value formatted stored html hout hok hjson hbody hstored hhtml
    obtain ⟨success, data, hs, hst, hd, hv, hf⟩ := hbody
    subst hout
    have hdel := mapHas_delete st.activeEditors (st.forms form).element
    have hnone := (mapGet_eq_none_iff _ _).mpr hdel
    simp only [mapDelete] at hnone
    cases hn : st.showNotifications <;> cases hc : st.hasNotificationContainer <;>
      simp [handleFormSubmission, hchanged, trySave, saveField, hok, hjson, hs, hst,
        applySaved, hd, hv, hf, hstored, hhtml, State.setForm, State.setElement,
        State.setInnerHTML, State.dispatch, showNotification, hn, hc, hnone, mapDelete]
  · intro r body value formatted fieldName hout hok hjson hbody hfield
    obtain ⟨html, hhtml⟩ := formatDisplayValue_string_total br formatted fieldName
    have h := hmain r body (.string value) (.string formatted) value html hout hok
      hjson hbody rfl (by rw [hfield]; exact hhtml)
    have hev := h.2.2.2.2.2.1
    rw [hfield] at hev
    exact ⟨html, hhtml, h.1, h.2.1, h.2.2.1, h.2.2.2.1, hev⟩

/-- C4 as amended, the scenario of the specification: on the `severity` element of the sample page,
`High` is selected and saved, and the server answers
`{success: true, data: {value: "High", formatted_value: "High"}}`; one PATCH went to
`/api/vulnerability/7/edit-field/`, the element shows `High` and has no session entry. -/
theorem handleFormSubmission_success_witness :
    ((handleFormSubmission sampleBrowser sampleChanged 0 savedHigh).state.elements 0).content
      = .markup "High" ∧
    ((handleFormSubmission sampleBrowser sampleChanged 0 savedHigh).state.elements 0).value
      = some "High" ∧
    mapGet (handleFormSubmission sampleBrowser sampleChanged 0 savedHigh).state.activeEditors 0
      = none ∧
    (handleFormSubmission sampleBrowser sampleChanged 0 savedHigh).state.requests.map
      (fun q => (q.method, q.url)) = [("PATCH", "/api/vulnerability/7/edit-field/")] :=
  have h := (handleFormSubmission_success sampleBrowser sampleChanged 0 savedHigh
    (by decide)).2.2.1 ⟨200, "OK", _⟩ _ (.string "High") (.string "High") "High" "High"
    rfl rfl rfl ⟨.bool true, _, rfl, rfl, rfl, rfl, rfl⟩ rfl rfl
  ⟨h.2.2.1, h.2.1, h.2.2.2.1, by
    rw [(handleFormSubmission_success sampleBrowser sampleChanged 0 savedHigh (by decide)).1]
    decide⟩

theorem trySave_fails (br : Browser) (st : State) (element : ElemId) (config : Config)
    (newValue : String) (out : FetchOutcome) (error : JSError) (hfail : SaveFails out error) :
    trySave br st element config newValue out =
      ({ st with requests := st.requests ++
          [saveRequest st config.modelType config.modelId config.fieldName newValue] },
        some error) := by
  cases hfail with
  | transport => rfl
  | http r h => simp [trySave, saveField, h, newError]
  | refused r body success message text hok hbody hsuccess hfalsy hmessage htext =>
    simp [trySave, saveField, hok, hbody, hsuccess, hfalsy, hmessage, JSValue.or, htext,
      newError]

/-- C5 fails: under an editor made with `showNotifications: false`, a save that fails
because the request throws shows no notification at all. -/
theorem handleFormSubmission_failure_quiet :
    (quietChanged.forms 0).inputValue ≠ (quietChanged.forms 0).config.currentValue ∧
    (handleFormSubmission sampleBrowser quietChanged 0 offline).state.notifications = [] ∧
    (handleFormSubmission sampleBrowser quietChanged 0 offline).state.events.map
      (fun e => (e.target, e.type)) = [(0, "inlineEditError")] := by
  decide

/-- C5 as amended: when the save of a changed value fails (the request throws, the status
is not OK, or the body has a falsy `success`), the submit button gets its label back and
is enabled, so that a form whose button was enabled is exactly as before; if
`showNotifications` is on and the notification container exists, one error notification is
added, with the message of the error, or `Failed to save changes` when that message is
empty, and otherwise none; one `inlineEditError` event carrying the field and the message
is dispatched on the element; `activeEditors` and every element, `data-value` included,
are unchanged.  The error is the thrown one, `HTTP <status>: <statusText>`, or the message
of the body, `Save failed` when the body has none. -/
theorem handleFormSubmission_failure (br : Browser) (st : State) (form : FormId)
    (out : FetchOutcome) (error : JSError)
    (hchanged : (st.forms form).inputValue ≠ (st.forms form).config.currentValue)
    (hfail : SaveFails out error) :
    (handleFormSubmission br st form out).thrown = none ∧
    (handleFormSubmission br st form out).state.forms form =
      { st.forms form with saveDisabled := false } ∧
    ((st.forms form).saveDisabled = false →
      (handleFormSubmission br st form out).state.forms form = st.forms form) ∧
    (∀ i, i ≠ form → (handleFormSubmission br st form out).state.forms i = st.forms i) ∧
    (handleFormSubmission br st form out).state.notifications =
      (if st.showNotifications && st.hasNotificationContainer then
        st.notifications ++
          [⟨if error.message.isEmpty then "Failed to save changes" else error.message,
            "error", 5000⟩]
      else st.notifications) ∧
    (st.showNotifications = true → st.hasNotificationContainer = true →
      error.message ≠ "" →
        (handleFormSubmission br st form out).state.notifications =
          st.notifications ++ [⟨error.message, "error", 5000⟩]) ∧
    (handleFormSubmission br st form out).state.events =
      st.events ++ [⟨(st.forms form).element, "inlineEditError",
        [("field", optValue (st.forms form).config.fieldName),
         ("error", .string error.message)]⟩] ∧
    (handleFormSubmission br st form out).state.activeEditors = st.activeEditors ∧
    (handleFormSubmission br st form out).state.elements = st.elements := by
  have hres : handleFormSubmission br st form out =
      ⟨saveFailed
        { st.setForm form { st.forms form with saveText := "Saving...", saveDisabled := true }
          with requests := st.requests ++
            [saveRequest st (st.forms form).config.modelType (st.forms form).config.modelId
              (st.forms form).config.fieldName (st.forms form).inputValue] }
        form (st.forms form).element (st.forms form).config (st.forms form).saveText error,
       none⟩ := by
    unfold handleFormSubmission
    simp only [hchanged, if_false]
    rw [trySave_fails br _ _ _ _ out error hfail]
    rfl
  rw [hres]
  refine ⟨rfl, ?_, ?_, ?_, ?_, ?_, ?_, ?_, ?_⟩
  · cases hn : st.showNotifications <;> cases hc : st.hasNotificationContainer <;>
      simp [saveFailed, State.setForm, State.dispatch, showNotification, hn, hc]
  · intro hd
    have hform : (saveFailed
        { st.setForm form { st.forms form with saveText := "Saving...", saveDisabled := true }
          with requests := st.requests ++
            [saveRequest st (st.forms form).config.modelType (st.forms form).config.modelId
              (st.forms form).config.fieldName (st.forms form).inputValue] }
        form (st.forms form).element (st.forms form).config (st.forms form).saveText
        error).forms form = { st.forms form with saveDisabled := false } := by
      cases hn : st.showNotifications <;> cases hc : st.hasNotificationContainer <;>
        simp [saveFailed, State.setForm, State.dispatch, showNotification, hn, hc]
    simp only [hform]
    cases hf : st.forms form
    rw [hf] at hd
    simp only at hd
    simp [hd]
  · intro i hi
    cases hn : st.showNotifications <;> cases hc : st.hasNotificationContainer <;>
      simp [saveFailed, State.setForm, State.dispatch, showNotification, hn, hc, hi]
  · cases hn : st.showNotifications <;> cases hc : st.hasNotificationContainer <;>
      cases he : error.message.isEmpty <;>
      simp [saveFailed, State.setForm, State.dispatch, showNotification, hn, hc, he]
  · intro hn hc hm
    have hm1 : error.message.isEmpty = false := (isEmpty_eq_false_iff _).mpr hm
    simp [saveFailed, State.setForm, State.dispatch, showNotification, hn, hc, hm1]
  · cases hn : st.showNotifications <;> cases hc : st.hasNotificationContainer <;>
      simp [saveFailed, State.setForm, State.dispatch, showNotification, hn, hc]
  · cases hn : st.showNotifications <;> cases hc : st.hasNotificationContainer <;>
      simp [saveFailed, State.setForm, State.dispatch, showNotification, hn, hc]
  · cases hn : st.showNotifications <;> cases hc : st.hasNotificationContainer <;>
      simp [saveFailed, State.setForm, State.dispatch, showNotification, hn, hc]

/-- C5 as amended, instances on the sample page with `High` selected: a network error, a
500 response, and a body `{success: false}` each leave the editor open, the button as it
was, and show one error notification with the message of the error. -/
theorem handleFormSubmission_failure_witness :
    (handleFormSubmission sampleBrowser sampleChanged 0 offline).state.notifications =
      [⟨"Failed to fetch", "error", 5000⟩] ∧
    (handleFormSubmission sampleBrowser sampleChanged 0
      (.response ⟨500, "Internal Server Error", .ok .null⟩)).state.notifications =
      [⟨"HTTP 500: Internal Server Error", "error", 5000⟩] ∧
    (handleFormSubmission sampleBrowser sampleChanged 0
      (.response ⟨200, "OK", .ok (.object [("success", .bool false)])⟩)).state.notifications =
      [⟨"Save failed", "error", 5000⟩] ∧
    (handleFormSubmission sampleBrowser sampleChanged 0 offline).state.forms 0 =
      sampleChanged.forms 0 ∧
    (handleFormSubmission sampleBrowser sampleChanged 0 offline).state.activeEditors =
      [(0, 0)] :=
  ⟨(handleFormSubmission_failure sampleBrowser sampleChanged 0 offline _ (by decide)
      (.transport _)).2.2.2.2.2.1 rfl rfl (by decide),
   (handleFormSubmission_failure sampleBrowser sampleChanged 0 _ _ (by decide)
      (.http ⟨500, "Internal Server Error", .ok .null⟩ rfl)).2.2.2.2.2.1 rfl rfl (by decide),
   (handleFormSubmission_failure sampleBrowser sampleChanged 0 _ _ (by decide)
      (.refused ⟨200, "OK", .ok (.object [("success", .bool false)])⟩ _ (.bool false)
        .undefined "Save failed" rfl rfl rfl rfl rfl rfl)).2.2.2.2.2.1 rfl rfl (by decide),
   (handleFormSubmission_failure sampleBrowser sampleChanged 0 offline _ (by decide)
      (.transport _)).2.2.1 rfl,
   (handleFormSubmission_failure sampleBrowser sampleChanged 0 offline _ (by decide)
      (.transport _)).2.2.2.2.2.2.2.1⟩

/-- C11 fails: on the field `start_date`, the string `<b>soon</b>` does not parse as a
date and is not returned unchanged: it is HTML-escaped. -/
theorem formatDisplayValue_date_escapes_unparsed :
    includes "start_date" "date" = true ∧
    sampleBrowser.parseDate "<b>soon</b>" = none ∧
    formatDisplayValue sampleBrowser (.string "<b>soon</b>") (some "start_date") =
      .ok "&lt;b&gt;soon&lt;/b&gt;" ∧
    formatDisplayValue sampleBrowser (.string "<b>soon</b>") (some "start_date") ≠
      .ok "<b>soon</b>" := by
  decide

/-- C11 as amended: on a field whose name contains "date", a non-empty string that parses
as a date is shown as the locale date string of that date; one that does not parse is
shown HTML-escaped, which is the string itself when it has no `&`, `<`, `>` or no-break
space. -/
theorem formatDisplayValue_date (br : Browser) (value fieldName : String)
    (hvalue : value ≠ "") (hfield : includes fieldName "date" = true) :
    (∀ t, br.parseDate value = some t →
      formatDisplayValue br (.string value) (some fieldName) =
        .ok (br.toLocaleDateString t)) ∧
    (br.parseDate value = none →
      formatDisplayValue br (.string value) (some fieldName) = .ok (escapeHtml value)) ∧
    (br.parseDate value = none → plainText value = true →
      formatDisplayValue br (.string value) (some fieldName) = .ok value) := by
  have h0 : (!(JSValue.string value).truthy && !(JSValue.string value).isZero) = false := by
    simp [JSValue.truthy, JSValue.isZero, (isEmpty_eq_false_iff value).mpr hvalue]
  have hnone : br.parseDate value = none →
      formatDisplayValue br (.string value) (some fieldName) = .ok (escapeHtml value) := by
    intro h
    simp [formatDisplayValue, h0, hfield, newDate, h, JSValue.callToString, JSValue.toStr,
      bind, Except.bind, pure, Except.pure]
  refine ⟨?_, hnone, ?_⟩
  · intro t h
    simp [formatDisplayValue, h0, hfield, newDate, h, bind, Except.bind, pure, Except.pure]
  · intro h hplain
    rw [hnone h, (escapeHtml_eq_self_iff value).mpr hplain]

/-- C11 as amended, instances on the field `start_date`: `2024-01-15` is shown as
`1/15/2024`, and `soon`, which is no date, as `soon`. -/
theorem formatDisplayValue_date_witness :
    formatDisplayValue sampleBrowser (.string "2024-01-15") (some "start_date") =
      .ok "1/15/2024" ∧
    formatDisplayValue sampleBrowser (.string "soon") (some "start_date") = .ok "soon" :=
  ⟨(formatDisplayValue_date sampleBrowser "2024-01-15" "start_date" (by decide)
      (by decide)).1 1705276800000 (by decide),
   (formatDisplayValue_date sampleBrowser "soon" "start_date" (by decide)
      (by decide)).2.2 (by decide) (by decide)⟩

/-! ### Field types -/

/-- The table `fieldTypes` read at a key other than `service_type`, entry by entry. -/
theorem getInputType_of_key (st : State) (fieldName : String) (modelType : Option String)
    (h : fieldName ≠ "service_type") :
    getInputType st (some fieldName) modelType =
      match fieldTypes.lookup fieldName with
      | some d => .descriptor d
      | none =>
        if objectPrototypeKeys.contains fieldName then .inherited fieldName
        else .descriptor ⟨"text", none, false⟩ := by
  have h1 : (some fieldName = some "service_type") = False := by simp [h]
  simp only [getInputType, h1, if_false, templateStr, Option.getD_some]

/-- The mapping of `getInputType` on every field name that is not the name of a member
of `Object.prototype`: the type is `text`, `textarea`, `date` or `select`, fixed by the
field name alone, with the documented option lists; `service_type` is a `select` over
`getServiceOptions()`, and a name outside the table is `text`. -/
theorem getInputType_mapping (st : State) (fieldName : String) (modelType : Option String)
    (hproto : fieldName ∉ objectPrototypeKeys) :
    (getInputType st (some fieldName) modelType).type ∈
      [some "text", some "textarea", some "date", some "select"] ∧
    getInputType st (some fieldName) modelType = getInputType st (some fieldName) none ∧
    (fieldName ∈ ["description", "scope", "body"] →
      getInputType st (some fieldName) modelType = .descriptor ⟨"textarea", none, false⟩) ∧
    (fieldName ∈ ["start_date", "end_date"] →
      getInputType st (some fieldName) modelType = .descriptor ⟨"date", none, false⟩) ∧
    (fieldName = "severity" →
      getInputType st (some fieldName) modelType = .descriptor ⟨"select",
        some [fixedEntry "Critical", fixedEntry "High", fixedEntry "Medium", fixedEntry "Low"],
        false⟩) ∧
    (fieldName = "status" →
      getInputType st (some fieldName) modelType = .descriptor ⟨"select",
        some [fixedEntry "Open", fixedEntry "Fixed"], false⟩) ∧
    (fieldName = "report_type" →
      getInputType st (some fieldName) modelType = .descriptor ⟨"select",
        some [fixedEntry "Draft", fixedEntry "Final", fixedEntry "Verification"], false⟩) ∧
    (fieldName = "leave_type" →
      getInputType st (some fieldName) modelType = .descriptor ⟨"select",
        some [fixedEntry "Training", fixedEntry "Vacation", fixedEntry "Work from Home"],
        false⟩) ∧
    (fieldName = "service_type" →
      getInputType st (some fieldName) modelType =
        .descriptor ⟨"select", some (getServiceOptions st), false⟩) ∧
    (fieldName ∉ ["description", "scope", "body", "start_date", "end_date", "severity",
        "status", "report_type", "leave_type", "service_type"] →
      getInputType st (some fieldName) modelType = .descriptor ⟨"text", none, false⟩) := by
  have hother : fieldName ∉ ["description", "scope", "body", "start_date", "end_date",
      "severity", "status", "report_type", "leave_type", "service_type"] →
      ∀ mt, getInputType st (some fieldName) mt = .descriptor ⟨"text", none, false⟩ := by
    intro h mt
    simp only [List.mem_cons, List.mem_singleton, List.not_mem_nil, or_false, not_or] at h
    obtain ⟨h1, h2, h3, h4, h5, h6, h7, h8, h9, hs⟩ := h
    rw [getInputType_of_key st fieldName mt hs]
    have e : ∀ k : String, fieldName ≠ k → (fieldName == k) = false := fun k hk => by
      simpa using hk
    simp [fieldTypes, List.lookup, e _ h1, e _ h2, e _ h3, e _ h4, e _ h5, e _ h6, e _ h7,
      e _ h8, e _ h9, e _ hs, hproto]
  by_cases hmem : fieldName ∈ ["description", "scope", "body", "start_date", "end_date",
      "severity", "status", "report_type", "leave_type", "service_type"]
  · simp only [List.mem_cons, List.mem_singleton, List.not_mem_nil, or_false] at hmem
    rcases hmem with h | h | h | h | h | h | h | h | h | h <;> subst h <;>
      refine ⟨?_, rfl, ?_, ?_, ?_, ?_, ?_, ?_, ?_, ?_⟩ <;>
      first
        | (intro h; first | rfl | exact absurd h (by decide))
        | simp [getInputType, InputType.type, fieldTypes, List.lookup, templateStr]
  · have h := hother hmem
    refine ⟨by rw [h]; simp [InputType.type], by rw [h, h], ?_, ?_, ?_, ?_, ?_, ?_, ?_,
      fun _ => h _⟩ <;>
      intro hk <;> exfalso <;> apply hmem <;> first
        | (subst hk; decide)
        | (simp only [List.mem_cons, List.mem_singleton, List.not_mem_nil, or_false] at hk ⊢
           rcases hk with hk | hk | hk <;> simp [hk])
        | (simp only [List.mem_cons, List.mem_singleton, List.not_mem_nil, or_false] at hk ⊢
           rcases hk with hk | hk <;> simp [hk])

/-- C12, the failing input: for the field name `constructor` the lookup
`fieldTypes[fieldName]` finds the member inherited from `Object.prototype`, which is
truthy, so `getInputType` returns it instead of `{ type: 'text' }`, and it has no `type`. -/
theorem getInputType_constructor :
    (getInputType sampleEditor (some "constructor") (some "vulnerability")).type = none ∧
    (getInputType sampleEditor (some "constructor") (some "vulnerability")).type ∉
      [some "text", some "textarea", some "date", some "select"] ∧
    "constructor" ∉ ["description", "scope", "body", "start_date", "end_date", "severity",
      "status", "report_type", "leave_type", "service_type"] := by
  decide

/-! ### The value captured by `startEditing` -/

/-- C13 fails: an element with the non-empty `data-value` `line one  line two` whose
markup holds a `br` tag is edited with its text content `line oneline two` as
`currentValue`, not with its `data-value`. -/
theorem startEditing_markup_overrides_value :
    ((newInlineEditor none none "" none markupPage).elements 0).value =
      some "line one  line two" ∧
    (startEditing sampleBrowser (newInlineEditor none none "" none markupPage) 0
      offline).thrown = none ∧
    ((startEditing sampleBrowser (newInlineEditor none none "" none markupPage) 0
      offline).state.forms 0).config.currentValue = "line oneline two" := by
  decide

/-- C13 as amended: the editor opened by `startEditing` captures as `currentValue` the
non-empty `data-value` of the element only when the `innerHTML` of the element equals its
`textContent`; when `data-value` is absent or empty, or when `innerHTML` differs from
`textContent` (the element holds markup or entities), it captures the untrimmed
`textContent`. -/
theorem startEditing_currentValue (br : Browser) (st : State) (element : ElemId)
    (services : FetchOutcome) (hnew : mapHas st.activeEditors element = false)
    (hdone : (startEditing br st element services).thrown = none) :
    (markupDiffers br (st.elements element) = false →
      ∀ v, (st.elements element).value = some v → v ≠ "" →
        ((startEditing br st element services).state.forms st.nextForm).config.currentValue
          = v) ∧
    (markupDiffers br (st.elements element) = false →
      ((st.elements element).value = none ∨ (st.elements element).value = some "") →
        ((startEditing br st element services).state.forms st.nextForm).config.currentValue
          = textContent br st (st.elements element)) ∧
    (markupDiffers br (st.elements element) = true →
      ((startEditing br st element services).state.forms st.nextForm).config.currentValue
        = textContent br st (st.elements element)) ∧
    (∀ html text, (st.elements element).content = .rendered html text →
      (markupDiffers br (st.elements element) = true ↔ html ≠ text) ∧
      textContent br st (st.elements element) = text) ∧
    mapGet (startEditing br st element services).state.activeEditors element =
      some st.nextForm := by
  rcases startEditing_new br st element services hnew with h | h
  · obtain ⟨_, hmap, _, _, hcfg, _, _⟩ := h
    rw [hcfg, hmap]
    refine ⟨?_, ?_, ?_, ?_, mapGet_append_self _ _ _ hnew⟩
    · intro hm v hv hne
      simp [readCurrentValue, hm, hv, (isEmpty_eq_false_iff v).mpr hne]
    · intro hm hv
      have he : "".isEmpty = true := by decide
      rcases hv with hv | hv <;> simp [readCurrentValue, hm, hv, he]
    · intro hm
      simp [readCurrentValue, hm]
    · intro html text hc
      simp [markupDiffers, textContent, hc]
  · exact absurd hdone h.1

/-- C13 as amended, instances: the `severity` element of the sample page, whose markup is
its text, is edited with its `data-value` `Medium`; the element of the page with a `br`
tag is edited with its text. -/
theorem startEditing_currentValue_witness :
    ((startEditing sampleBrowser sampleEditor 0 offline).state.forms 0).config.currentValue
      = "Medium" ∧
    ((startEditing sampleBrowser (newInlineEditor none none "" none markupPage) 0
      offline).state.forms 0).config.currentValue = "line oneline two" :=
  ⟨(startEditing_currentValue sampleBrowser sampleEditor 0 offline rfl rfl).1 rfl
      "Medium" rfl (by decide),
   (startEditing_currentValue sampleBrowser (newInlineEditor none none "" none markupPage) 0
      offline rfl rfl).2.2.1 rfl⟩

/-! ### The CSRF token -/

theorem splitEquals_no_equals (l acc : List Char) (h : '=' ∉ l) :
    splitEquals l acc = [acc.reverse ++ l] := by
  induction l generalizing acc with
  | nil => simp [splitEquals]
  | cons c cs ih =>
    simp only [List.mem_cons, not_or] at h
    have hc : c ≠ '=' := fun e => h.1 e.symm
    simp [splitEquals, hc, ih (c :: acc) h.2]

theorem splitEquals_first (pre rest acc : List Char) (h : '=' ∉ pre) :
    splitEquals (pre ++ '=' :: rest) acc = (acc.reverse ++ pre) :: splitEquals rest [] := by
  induction pre generalizing acc with
  | nil => simp [splitEquals]
  | cons c cs ih =>
    simp only [List.mem_cons, not_or] at h
    have hc : c ≠ '=' := fun e => h.1 e.symm
    simp [splitEquals, hc, ih (c :: acc) h.2]

/-- Where `getCSRFToken` does return the token: the first entry of the cookie that starts
with `csrftoken=` carries a non-empty value without an equals sign. -/
theorem getCSRFToken_of_entry (cookie : String) (metaTag : Option (Option String))
    (value : List Char)
    (hfind : (splitCookie cookie.data []).find? (fun row => "csrftoken=".data.isPrefixOf row)
      = some ("csrftoken=".data ++ value))
    (hvalue : '=' ∉ value) (hne : value ≠ []) :
    getCSRFToken cookie metaTag = some ⟨value⟩ := by
  have hsplit : splitEquals ("csrftoken=".data ++ value) [] = ["csrftoken".data, value] := by
    have h1 : "csrftoken=".data ++ value = "csrftoken".data ++ '=' :: value := by
      simp
    rw [h1, splitEquals_first _ _ _ (by decide), splitEquals_no_equals _ _ hvalue]
    simp
  have hempty : (String.mk value).isEmpty = false := by
    rw [isEmpty_eq_false_iff]
    intro h
    exact hne (congrArg String.data h)
  unfold getCSRFToken
  simp only [hfind, hsplit]
  simp [hempty]

/-- Without an entry that starts with `csrftoken=`, `getCSRFToken` returns the `content`
of the meta tag, or the empty string when there is no such tag. -/
theorem getCSRFToken_of_no_entry (cookie : String) (metaTag : Option (Option String))
    (hfind : (splitCookie cookie.data []).find? (fun row => "csrftoken=".data.isPrefixOf row)
      = none) :
    getCSRFToken cookie metaTag =
      match metaTag with
      | some content => content
      | none => some "" := by
  cases metaTag <;> simp [getCSRFToken, hfind]

/-- C14, the failing input: the cookie `sessionid=x; csrftoken=ab=cd` holds the entry
`csrftoken=ab=cd`, whose value `ab=cd` is not empty, and `getCSRFToken` returns `ab`: the
call `split('=')[1]` cuts the value at its first equals sign.  In the same way the value
`=abc` counts as empty and the meta tag is read instead. -/
theorem getCSRFToken_cuts_value :
    getCSRFToken "sessionid=x; csrftoken=ab=cd" (some (some "from-meta")) = some "ab" ∧
    getCSRFToken "sessionid=x; csrftoken=ab=cd" (some (some "from-meta")) ≠ some "ab=cd" ∧
    getCSRFToken "csrftoken==abc" (some (some "from-meta")) = some "from-meta" ∧
    getCSRFToken "sessionid=x; csrftoken=abc" (some (some "from-meta")) = some "abc" := by
  decide

/-! ### Cancelling every edit -/

theorem mapGet_mem (m : List (ElemId × FormId)) (k : ElemId) (f : FormId)
    (h : mapGet m k = some f) : (k, f) ∈ m := by
  induction m with
  | nil => simp [mapGet] at h
  | cons p ps ih =>
    obtain ⟨a, b⟩ := p
    simp only [mapGet, List.lookup] at h ih
    by_cases hk : k = a
    · subst hk
      simp only [beq_self_eq_true] at h
      injection h with h
      subst h
      exact List.mem_cons_self _ _
    · have h1 : (k == a) = false := by simpa using hk
      simp only [h1] at h
      exact List.mem_cons_of_mem _ (ih h)

theorem cancelledState_congr (br : Browser) (st : State) (keys keys' : List ElemId)
    (h : ∀ i, i ∈ keys ↔ i ∈ keys') :
    cancelledState br st keys = cancelledState br st keys' := by
  have h1 : (fun p : ElemId × FormId => !keys.contains p.1) =
      (fun p : ElemId × FormId => !keys'.contains p.1) := by
    funext p
    have := h p.1
    cases hk : keys.contains p.1 <;> cases hk' : keys'.contains p.1 <;> simp_all
  have h2 : (fun i => if i ∈ keys then cancelledElement br st i else st.elements i) =
      (fun i => if i ∈ keys' then cancelledElement br st i else st.elements i) := by
    funext i
    by_cases hi : i ∈ keys
    · rw [if_pos hi, if_pos ((h i).mp hi)]
    · rw [if_neg hi, if_neg (fun hc => hi ((h i).mpr hc))]
  simp only [cancelledState, h1, h2]

/-- The loop of `cancelAllEditing` over any list of elements, when every open editor
captured a field name or an empty `currentValue`: no exception, and exactly the edits of the
listed elements are cancelled. -/
theorem cancelAllFrom_eq (br : Browser) (keys : List ElemId) (st : State)
    (hnames : ∀ p ∈ st.activeEditors,
      ((st.forms p.2).config.fieldName.isSome ||
        (st.forms p.2).config.currentValue.isEmpty) = true) :
    cancelAllFrom br keys st = ⟨cancelledState br st keys, none⟩ := by
  induction keys generalizing st with
  | nil =>
    simp [cancelAllFrom, cancelledState]
  | cons el rest ih =>
    cases hget : mapGet st.activeEditors el with
    | none =>
      have hce : cancelEditing br st el = ⟨st, none⟩ := by simp [cancelEditing, hget]
      simp only [cancelAllFrom, hce]
      rw [ih st hnames]
      have hhas := (mapGet_eq_none_iff _ _).mp hget
      simp only [mapHas, List.any_eq_false] at hhas
      have h1 : st.activeEditors.filter (fun p => !rest.contains p.1) =
          st.activeEditors.filter (fun p => !(el :: rest).contains p.1) := by
        apply List.filter_congr
        intro p hp
        have hne : ¬ (p.1 == el) = true := hhas p hp
        have hne' : p.1 ≠ el := by simpa using hne
        simp [List.contains_cons, hne']
      have h2 : (fun i => if i ∈ rest then cancelledElement br st i else st.elements i) =
          (fun i => if i ∈ el :: rest then cancelledElement br st i else st.elements i) := by
        funext i
        by_cases hi : i = el
        · subst hi
          have hc : cancelledElement br st i = st.elements i := by
            simp [cancelledElement, hget]
          simp [hc]
        · simp [hi]
      simp only [cancelledState, h1, h2]
    | some f =>
      obtain ⟨html, hfmt⟩ :=
        formats_of_shown br (st.forms f).config (hnames (el, f) (mapGet_mem _ _ _ hget))
      have hce : cancelEditing br st el =
          ⟨{ st.setInnerHTML el html with
              activeEditors := mapDelete st.activeEditors el }, none⟩ := by
        simp [cancelEditing, hget, hfmt, State.setInnerHTML, State.setElement]
      simp only [cancelAllFrom, hce]
      rw [ih]
      · have h1 : (mapDelete st.activeEditors el).filter (fun p => !rest.contains p.1) =
            st.activeEditors.filter (fun p => !(el :: rest).contains p.1) := by
          simp only [mapDelete, List.filter_filter]
          apply List.filter_congr
          intro p _
          by_cases hp : p.1 = el
          · simp [List.contains_cons, hp]
          · have : (p.1 == el) = false := by simpa using hp
            simp [List.contains_cons, hp, this]
        have h2 : (fun i => if i ∈ rest then
              cancelledElement br { st.setInnerHTML el html with
                activeEditors := mapDelete st.activeEditors el } i
            else ({ st.setInnerHTML el html with
                activeEditors := mapDelete st.activeEditors el } : State).elements i) =
            (fun i => if i ∈ el :: rest then cancelledElement br st i
              else st.elements i) := by
          funext i
          by_cases hi : i = el
          · subst hi
            have hnone : mapGet (mapDelete st.activeEditors i) i = none :=
              (mapGet_eq_none_iff _ _).mpr (mapHas_delete _ _)
            simp [cancelledElement, hnone, hget, hfmt, State.setInnerHTML, State.setElement]
          · have hother := mapGet_delete_other st.activeEditors el i hi
            simp [cancelledElement, hother, State.setInnerHTML, State.setElement, hi]
        simp only [cancelledState, h1, State.setInnerHTML, State.setElement] at h2 ⊢
        simp only [h2]
      · intro p hp
        simp only [mapDelete, List.mem_filter] at hp
        exact hnames p hp.1

/-- C15 fails for an editor opened on an element without `data-field`: with such an editor
on element 0 (captured value `Medium`) and an ordinary one on element 1, `cancelAllEditing`
throws the `TypeError` of `fieldName.includes` at the first entry and leaves both entries in
`activeEditors`, element 0 still showing its form; the result depends on the order, since
cancelling element 1 first removes its entry before the exception. -/
theorem cancelAllEditing_throws_without_field :
    fieldlessBoth.activeEditors = [(0, 0), (1, 1)] ∧
    (fieldlessBoth.forms 0).config.fieldName = none ∧
    (cancelAllEditing sampleBrowser fieldlessBoth).thrown =
      some ⟨"TypeError", "Cannot read properties of undefined (reading 'includes')"⟩ ∧
    (cancelAllEditing sampleBrowser fieldlessBoth).state.activeEditors = [(0, 0), (1, 1)] ∧
    ((cancelAllEditing sampleBrowser fieldlessBoth).state.elements 0).content = .editor 0 ∧
    (cancelAllFrom sampleBrowser [1, 0] fieldlessBoth).thrown =
      some ⟨"TypeError", "Cannot read properties of undefined (reading 'includes')"⟩ ∧
    (cancelAllFrom sampleBrowser [1, 0] fieldlessBoth).state.activeEditors = [(0, 0)] := by
  decide

/-- C15 as amended: for every editor state in which each open editor captured a field name
or an empty `currentValue` (exactly when `formatDisplayValue(currentValue, fieldName)`
returns), `cancelAllEditing` ends without an exception with `activeEditors` empty; every
element that had an editor shows `formatDisplayValue` of the captured `currentValue` and
`fieldName`, every other element and the rest of the state, recorded requests included, are
unchanged; and cancelling the open editors one by one in any order gives the same state. -/
theorem cancelAllEditing_spec (br : Browser) (st : State)
    (hnames : ∀ p ∈ st.activeEditors,
      ((st.forms p.2).config.fieldName.isSome ||
        (st.forms p.2).config.currentValue.isEmpty) = true) :
    (cancelAllEditing br st).thrown = none ∧
    (cancelAllEditing br st).state.activeEditors = [] ∧
    (∀ el f, mapGet st.activeEditors el = some f →
      ∃ html, formatDisplayValue br (.string (st.forms f).config.currentValue)
          (st.forms f).config.fieldName = .ok html ∧
        (cancelAllEditing br st).state.elements el =
          { st.elements el with content := .markup html }) ∧
    (∀ el, mapGet st.activeEditors el = none →
      (cancelAllEditing br st).state.elements el = st.elements el) ∧
    (cancelAllEditing br st).state.requests = st.requests ∧
    (cancelAllEditing br st).state.notifications = st.notifications ∧
    (∀ order : List ElemId, order.Perm (st.activeEditors.map Prod.fst) →
      cancelAllFrom br order st = cancelAllEditing br st) := by
  have hall := cancelAllFrom_eq br (st.activeEditors.map Prod.fst) st hnames
  unfold cancelAllEditing
  rw [hall]
  refine ⟨rfl, ?_, ?_, ?_, rfl, rfl, ?_⟩
  · simp only [cancelledState, List.filter_eq_nil_iff]
    intro p hp
    have : p.1 ∈ st.activeEditors.map Prod.fst := List.mem_map.mpr ⟨p, hp, rfl⟩
    simp [this]
  · intro el f hget
    obtain ⟨html, hhtml⟩ :=
      formats_of_shown br (st.forms f).config (hnames (el, f) (mapGet_mem _ _ _ hget))
    refine ⟨html, hhtml, ?_⟩
    have hmem : el ∈ st.activeEditors.map Prod.fst :=
      List.mem_map.mpr ⟨(el, f), mapGet_mem _ _ _ hget, rfl⟩
    simp [cancelledState, hmem, cancelledElement, hget, hhtml]
  · intro el hget
    simp [cancelledState, cancelledElement, hget]
  · intro order hperm
    rw [cancelAllFrom_eq br order st hnames]
    rw [cancelledState_congr br st order (st.activeEditors.map Prod.fst)
      (fun i => hperm.mem_iff)]

/-- C15 as amended, an instance: with editors open on elements 0 and 1 of the sample page,
`cancelAllEditing` empties the map, shows `Medium` in both again, sends nothing, and
cancelling element 1 before element 0 gives the same state. -/
theorem cancelAllEditing_spec_witness :
    (startEditing sampleBrowser sampleEditing 1 offline).state.activeEditors
      = [(0, 0), (1, 1)] ∧
    (cancelAllEditing sampleBrowser
      (startEditing sampleBrowser sampleEditing 1 offline).state).state.activeEditors = [] ∧
    (cancelAllEditing sampleBrowser
      (startEditing sampleBrowser sampleEditing 1 offline).state).state.requests = [] ∧
    cancelAllFrom sampleBrowser [1, 0] (startEditing sampleBrowser sampleEditing 1 offline).state
      = cancelAllEditing sampleBrowser (startEditing sampleBrowser sampleEditing 1 offline).state :=
  ⟨by decide,
   (cancelAllEditing_spec sampleBrowser (startEditing sampleBrowser sampleEditing 1
      offline).state (by decide)).2.1,
   (cancelAllEditing_spec sampleBrowser (startEditing sampleBrowser sampleEditing 1
      offline).state (by decide)).2.2.2.2.1,
   (cancelAllEditing_spec sampleBrowser (startEditing sampleBrowser sampleEditing 1
      offline).state (by decide)).2.2.2.2.2.2 [1, 0] (by decide)⟩

/-! ### The options offered for `service_type` -/

/-- C19: whatever the state and however the services request of `loadServices` ends,
`getServiceOptions` afterwards returns a non-empty list; in any state it returns
`servicesCache` itself when the cache is a non-empty list, and otherwise (cache `null` or
empty) the fixed list of four entries, values 1 to 4, which is the fallback list of
`setFallbackServices` without its last entry; an OK body with `success` true and an empty
`services` list leaves the cache empty. -/
theorem getServiceOptions_nonempty (st : State) (out : FetchOutcome) :
    getServiceOptions (loadServices st out) ≠ [] ∧
    getServiceOptions st ≠ [] ∧
    (∀ cache, st.servicesCache = some cache → cache ≠ [] → getServiceOptions st = cache) ∧
    ((st.servicesCache = none ∨ st.servicesCache = some []) →
      getServiceOptions st =
        [ ⟨.number (.other "1"), .string "Penetration Testing", .string "Penetration Testing"⟩,
          ⟨.number (.other "2"), .string "Vulnerability Assessment",
            .string "Vulnerability Assessment"⟩,
          ⟨.number (.other "3"), .string "Code Review", .string "Code Review"⟩,
          ⟨.number (.other "4"), .string "Security Audit", .string "Security Audit"⟩ ] ∧
      getServiceOptions st = fallbackServices.dropLast ∧
      (getServiceOptions st).length = 4) ∧
    fallbackServices.length = 5 ∧
    (loadServices st noServices).servicesCache = some [] ∧
    getServiceOptions (loadServices st noServices) = fallbackServices.dropLast := by
  have hne : ∀ s : State, getServiceOptions s ≠ [] := by
    intro s
    unfold getServiceOptions
    split <;> simp
  refine ⟨hne _, hne _, ?_, ?_, rfl, rfl, rfl⟩
  · intro cache hc hcne
    cases cache with
    | nil => exact absurd rfl hcne
    | cons c cs => simp [getServiceOptions, hc]
  · intro h
    rcases h with h | h <;> simp [getServiceOptions, h, fallbackServices, serviceEntry]

/-- C19, instances: after a services response with an empty list the options are the four
built-in ones; with a failed request they are the five fallback entries. -/
theorem getServiceOptions_nonempty_witness :
    (getServiceOptions (loadServices sampleEditor noServices)).length = 4 ∧
    getServiceOptions (loadServices sampleEditor offline) = fallbackServices :=
  ⟨((getServiceOptions_nonempty (loadServices sampleEditor noServices) offline).2.2.2.1
      (Or.inr rfl)).2.2,
   (getServiceOptions_nonempty (loadServices sampleEditor offline) offline).2.2.1
      fallbackServices rfl (by simp [fallbackServices])⟩

/-! ### Submitting an untouched `service_type` editor -/

theorem mapAll_append {α β : Type} (f : α → Except JSError β) (pre post : List α) (o : α)
    (out : List β) (h : mapAll f (pre ++ o :: post) = .ok out) :
    ∃ a b c, out = a ++ b :: c ∧ mapAll f pre = .ok a ∧ f o = .ok b ∧
      mapAll f post = .ok c := by
  induction pre generalizing out with
  | nil =>
    simp only [List.nil_append, mapAll] at h
    cases hf : f o with
    | error e => rw [hf] at h; cases h
    | ok b =>
      rw [hf] at h
      simp only at h
      cases hp : mapAll f post with
      | error e => rw [hp] at h; cases h
      | ok c =>
        rw [hp] at h
        injection h with h
        exact ⟨[], b, c, by simp [h], rfl, rfl, rfl⟩
  | cons x xs ih =>
    simp only [List.cons_append, mapAll, List.append_eq] at h
    cases hf : f x with
    | error e => rw [hf] at h; cases h
    | ok y =>
      rw [hf] at h
      simp only at h
      cases hr : mapAll f (xs ++ o :: post) with
      | error e => rw [hr] at h; cases h
      | ok ys =>
        rw [hr] at h
        injection h with h
        obtain ⟨a, b, c, hys, ha, hb, hc⟩ := ih ys hr
        exact ⟨y :: a, b, c, by simp [← h, hys], by simp [mapAll, hf, ha], hb, hc⟩

theorem mapAll_forall {α β : Type} (f : α → Except JSError β) (P : β → Prop) (l : List α)
    (out : List β) (h : mapAll f l = .ok out)
    (hP : ∀ x ∈ l, ∀ y, f x = .ok y → P y) : ∀ y ∈ out, P y := by
  induction l generalizing out with
  | nil =>
    simp only [mapAll] at h
    injection h with h
    subst h
    simp
  | cons x xs ih =>
    simp only [mapAll] at h
    cases hf : f x with
    | error e => rw [hf] at h; cases h
    | ok y =>
      rw [hf] at h
      simp only at h
      cases hr : mapAll f xs with
      | error e => rw [hr] at h; cases h
      | ok ys =>
        rw [hr] at h
        injection h with h
        subst h
        intro z hz
        rcases List.mem_cons.mp hz with hz | hz
        · subst hz; exact hP x (List.mem_cons_self _ _) _ hf
        · exact ih ys hr (fun x hx => hP x (List.mem_cons_of_mem _ hx)) z hz

theorem selectValue_last (a c : List SelectOption) (b : SelectOption)
    (hb : b.selected = true) (hc : ∀ q ∈ c, q.selected = false) :
    selectValue (a ++ b :: c) = b.value := by
  have h1 : c.filter (fun o => o.selected) = [] := by
    rw [List.filter_eq_nil_iff]
    intro q hq
    simp [hc q hq]
  simp [selectValue, List.filter_append, List.filter_cons, hb, h1]

/-- What `startEditing` does on a `service_type` element without an editor: it reloads the
services, builds one option per entry of `getServiceOptions()`, and, unless an entry
throws, stores a select whose value is that of the last option flagged `selected`. -/
theorem startEditing_service (br : Browser) (st : State) (element : ElemId)
    (services : FetchOutcome) (hnew : mapHas st.activeEditors element = false)
    (hfield : (st.elements element).field = some "service_type") :
    match mapAll (buildOption (some "service_type")
        (readCurrentValue br st (st.elements element)))
        (getServiceOptions (loadServices st services)) with
    | .ok opts =>
      (startEditing br st element services).state.forms st.nextForm =
        ⟨⟨(st.elements element).model, (st.elements element).id, some "service_type",
            readCurrentValue br st (st.elements element)⟩,
          element, "select", opts, false, selectValue opts, "Save", false⟩
    | .error e => (startEditing br st element services).thrown = some e := by
  have hn := (loadServices_frame st services).2.2.2
  have ha := (loadServices_frame st services).1
  cases hm : mapAll (buildOption (some "service_type")
      (readCurrentValue br st (st.elements element)))
      (getServiceOptions (loadServices st services)) with
  | error e =>
    simp [startEditing, hnew, hfield, createEditor, getInputType, InputType.type,
      InputType.loadDynamically, InputType.options, hm]
  | ok opts =>
    simp [startEditing, hnew, hfield, createEditor, getInputType, InputType.type,
      InputType.loadDynamically, InputType.options, hm, storeForm, State.setForm,
      State.setElement, hn]

/-- C20 fails: with two cached services named `Code Review`, 3 and 7, the element showing
`Code Review` matches service 3 by name and not by id, yet the editor preselects the
option of service 7, the last one flagged, and the untouched form is saved with the
value `7`, not `3`. -/
theorem service_type_last_match_wins :
    (startEditing sampleBrowser serviceEditor 0 twoCodeReviews).thrown = none ∧
    ((startEditing sampleBrowser serviceEditor 0 twoCodeReviews).state.forms 0).config.currentValue
      = "Code Review" ∧
    ((startEditing sampleBrowser serviceEditor 0 twoCodeReviews).state.forms 0).options =
      [⟨"3", "Code Review", true⟩, ⟨"7", "Code Review (legacy)", true⟩] ∧
    ((startEditing sampleBrowser serviceEditor 0 twoCodeReviews).state.forms 0).inputValue
      = "7" ∧
    ((handleFormSubmission sampleBrowser
      (startEditing sampleBrowser serviceEditor 0 twoCodeReviews).state 0
      offline).state.requests.map (fun q => (q.method, q.url, q.body))) =
      [("GET", "/api/services/", none),
       ("PATCH", "/api/engagement/3/edit-field/",
        some [("field", .string "service_type"), ("value", .string "7")])] := by
  refine ⟨by decide, by decide, by decide, by decide, rfl⟩

/-- C20 as amended: on a `service_type` element whose captured `currentValue` is the name
of an offered service but not the string form of its id, and which no service listed after
that one matches by name or by id, an editor that opens has that service's option
selected, so that the value of the select is the id as a string; submitting the untouched
form is then no cancel: one PATCH is sent, with the id string as value. -/
theorem service_type_unchanged_saves (br : Browser) (st : State) (element : ElemId)
    (services out : FetchOutcome) (pre post : List OptionEntry) (o : OptionEntry)
    (idText : String)
    (hnew : mapHas st.activeEditors element = false)
    (hfield : (st.elements element).field = some "service_type")
    (hdone : (startEditing br st element services).thrown = none)
    (hopts : getServiceOptions (loadServices st services) = pre ++ o :: post)
    (hname : o.name = .string (readCurrentValue br st (st.elements element)))
    (hid : o.value.toStr = .ok idText)
    (hne : idText ≠ readCurrentValue br st (st.elements element))
    (hlast : ∀ p ∈ post,
      p.name.strictEqString (readCurrentValue br st (st.elements element)) = false ∧
      p.value.callToString ≠ .ok (readCurrentValue br st (st.elements element))) :
    ((startEditing br st element services).state.forms st.nextForm).inputValue = idText ∧
    (∃ label, (⟨idText, label, true⟩ : SelectOption) ∈
      ((startEditing br st element services).state.forms st.nextForm).options) ∧
    ((startEditing br st element services).state.forms st.nextForm).config.currentValue =
      readCurrentValue br st (st.elements element) ∧
    mapGet (startEditing br st element services).state.activeEditors element =
      some st.nextForm ∧
    (handleFormSubmission br (startEditing br st element services).state st.nextForm
        out).state.requests =
      (startEditing br st element services).state.requests ++
        [⟨"PATCH",
          (startEditing br st element services).state.baseUrl ++ "/" ++
            templateStr (st.elements element).model ++ "/" ++
            templateStr (st.elements element).id ++ "/edit-field/",
          ("Content-Type", "application/json") ::
            (startEditing br st element services).state.xhrHeaders,
          some [("field", .string "service_type"), ("value", .string idText)]⟩] := by
  have hform := startEditing_service br st element services hnew hfield
  cases hm : mapAll (buildOption (some "service_type")
      (readCurrentValue br st (st.elements element)))
      (getServiceOptions (loadServices st services)) with
  | error e =>
    rw [hm] at hform
    simp only at hform
    rw [hform] at hdone
    cases hdone
  | ok opts =>
    rw [hm] at hform
    simp only at hform
    rw [hopts] at hm
    obtain ⟨a, b, c, hsplit, _, hb, hc⟩ := mapAll_append _ _ _ _ _ hm
    have hbuilt : ∃ label, b = ⟨idText, label, true⟩ := by
      simp only [buildOption, hid] at hb
      cases hl : domText o.label with
      | error e => rw [hl] at hb; cases hb
      | ok label =>
        rw [hl] at hb
        simp only [hname, JSValue.strictEqString, beq_self_eq_true, if_true] at hb
        injection hb with hb
        exact ⟨label, hb.symm⟩
    obtain ⟨label, hbeq⟩ := hbuilt
    have hunsel : ∀ q ∈ c, q.selected = false := by
      apply mapAll_forall _ (fun q => q.selected = false) post c hc
      intro p hp q hq
      obtain ⟨hpn, hpv⟩ := hlast p hp
      simp only [buildOption] at hq
      cases hv : p.value.toStr with
      | error e => rw [hv] at hq; cases hq
      | ok v =>
        rw [hv] at hq
        simp only at hq
        cases hl : domText p.label with
        | error e => rw [hl] at hq; cases hq
        | ok l =>
          rw [hl] at hq
          simp only [hpn, Bool.false_eq_true, if_false, if_true] at hq
          cases hcs : p.value.callToString with
          | error e => rw [hcs] at hq; cases hq
          | ok text =>
            rw [hcs] at hq
            simp only at hq
            injection hq with hq
            rw [← hq]
            simp only [beq_eq_false_iff_ne, ne_eq]
            intro heq
            apply hpv
            rw [hcs, heq]
    have hvalue : selectValue opts = idText := by
      rw [hsplit, selectValue_last a c b (by rw [hbeq]) hunsel, hbeq]
    have hinput : ((startEditing br st element services).state.forms st.nextForm).inputValue
        = idText := by rw [hform]; exact hvalue
    have hcur : ((startEditing br st element services).state.forms
        st.nextForm).config.currentValue = readCurrentValue br st (st.elements element) := by
      rw [hform]
    have hchanged : ((startEditing br st element services).state.forms st.nextForm).inputValue
        ≠ ((startEditing br st element services).state.forms
          st.nextForm).config.currentValue := by
      rw [hinput, hcur]; exact hne
    refine ⟨hinput, ⟨label, ?_⟩, hcur, ?_, ?_⟩
    · rw [hform, hsplit, hbeq]
      simp
    · rcases startEditing_new br st element services hnew with h | h
      · rw [h.2.1]; exact mapGet_append_self _ _ _ hnew
      · exact absurd hdone h.1
    · rw [handleFormSubmission_requests br _ st.nextForm out hchanged, hinput]
      rw [hform]
      rfl

/-- C20 as amended, an instance: the server lists `Audit` (2) and `Code Review` (3); the
element showing `Code Review` gets an editor with the option `3` selected, and submitting
it untouched sends a PATCH with the value `3`. -/
theorem service_type_unchanged_saves_witness :
    ((startEditing sampleBrowser serviceEditor 0 oneCodeReview).state.forms 0).inputValue
      = "3" ∧
    ((handleFormSubmission sampleBrowser
      (startEditing sampleBrowser serviceEditor 0 oneCodeReview).state 0
      offline).state.requests.map (fun q => (q.method, q.url))) =
      [("GET", "/api/services/"), ("PATCH", "/api/engagement/3/edit-field/")] :=
  have h := service_type_unchanged_saves sampleBrowser serviceEditor 0 oneCodeReview offline
    [⟨.number (.other "2"), .string "Audit", .string "Audit"⟩]
    [] ⟨.number (.other "3"), .string "Code Review", .string "Code Review"⟩ "3"
    rfl rfl rfl rfl rfl rfl (by decide) (by simp)
  have h5 : (handleFormSubmission sampleBrowser
      (startEditing sampleBrowser serviceEditor 0 oneCodeReview).state 0
      offline).state.requests = _ := h.2.2.2.2
  ⟨h.1, by rw [h5]; decide⟩

/-! ### The employee assignment widget -/

/-- C16: when the confirmation prompt is declined, `removeEmployee` returns at once and
leaves the whole state as it was: no request is recorded, no notification is added, and
the list of current employees and the dropdown of available employees are unchanged. -/
theorem removeEmployee_declined (m : Manager) (engagementId : String) (employeeId : JSValue)
    (employeeName : String) (out outList outAvailable : FetchOutcome) :
    (removeEmployee m engagementId employeeId employeeName false out outList
      outAvailable).thrown = none ∧
    (removeEmployee m engagementId employeeId employeeName false out outList
      outAvailable).state = m ∧
    (removeEmployee m engagementId employeeId employeeName false out outList
      outAvailable).state.editor.requests = m.editor.requests ∧
    (removeEmployee m engagementId employeeId employeeName false out outList
      outAvailable).state.editor.notifications = m.editor.notifications ∧
    (removeEmployee m engagementId employeeId employeeName false out outList
      outAvailable).state.lists engagementId = m.lists engagementId ∧
    (removeEmployee m engagementId employeeId employeeName false out outList
      outAvailable).state.selects engagementId = m.selects engagementId := by
  have h : removeEmployee m engagementId employeeId employeeName false out outList
      outAvailable = ⟨m, none⟩ := by
    simp [removeEmployee]
  rw [h]
  exact ⟨rfl, rfl, rfl, rfl, rfl, rfl⟩

theorem notify_requests (m : Manager) (message type : String) :
    (m.notify message type).editor.requests = m.editor.requests ∧
    (m.notify message type).lists = m.lists ∧
    (m.notify message type).selects = m.selects := by
  refine ⟨?_, rfl, rfl⟩
  simp only [Manager.notify]
  exact (showNotification_frame _ _ _).1

theorem loadCurrentEmployees_requests (m : Manager) (engagementId : String)
    (out : FetchOutcome) :
    ∃ rest, (loadCurrentEmployees m engagementId out).editor.requests =
        m.editor.requests ++ rest ∧ ∀ q ∈ rest, q.method = "GET" := by
  unfold loadCurrentEmployees
  cases m.lists engagementId with
  | none => exact ⟨[], by simp, by simp⟩
  | some _ =>
    refine ⟨[_], rfl, ?_⟩
    intro q hq
    simp only [List.mem_singleton] at hq
    rw [hq]

theorem loadAvailable_requests (m : Manager) (engagementId : String) (out : FetchOutcome) :
    ∃ rest, (loadAvailableEmployeesDropdown m engagementId out).editor.requests =
        m.editor.requests ++ rest ∧ ∀ q ∈ rest, q.method = "GET" := by
  unfold loadAvailableEmployeesDropdown
  cases m.selects engagementId with
  | none => exact ⟨[], by simp, by simp⟩
  | some _ =>
    refine ⟨[_], rfl, ?_⟩
    intro q hq
    simp only [List.mem_singleton] at hq
    rw [hq]

theorem afterMutation_requests (m : Manager) (engagementId : String)
    (res : Except JSError JSValue) (done failed : String) (reset : Manager → Manager)
    (outList outAvailable : FetchOutcome) (m1 : Manager)
    (hreset : ∀ s, (reset s).editor.requests = s.editor.requests)
    (h : afterMutation m engagementId res done failed reset outList outAvailable = .ok m1) :
    ∃ rest, m1.editor.requests = m.editor.requests ++ rest ∧ ∀ q ∈ rest, q.method = "GET" := by
  unfold afterMutation at h
  cases res with
  | error e => cases h
  | ok result =>
    simp only at h
    cases hs : result.get "success" with
    | error e => rw [hs] at h; cases h
    | ok success =>
      rw [hs] at h
      simp only at h
      split_ifs at h
      · injection h with h
        subst h
        obtain ⟨r1, h1, g1⟩ := loadCurrentEmployees_requests
          (reset (m.notify done "success")) engagementId outList
        obtain ⟨r2, h2, g2⟩ := loadAvailable_requests
          (loadCurrentEmployees (reset (m.notify done "success")) engagementId outList)
          engagementId outAvailable
        refine ⟨r1 ++ r2, ?_, ?_⟩
        · rw [h2, h1, hreset, (notify_requests m done "success").1, List.append_assoc]
        · intro q hq
          rcases List.mem_append.mp hq with hq | hq
          · exact g1 q hq
          · exact g2 q hq
      · refine ⟨[], ?_, by simp⟩
        unfold notifyFailure at h
        cases hm : result.get "message" with
        | error e => rw [hm] at h; cases h
        | ok message =>
          rw [hm] at h
          simp only at h
          split_ifs at h
          · cases ht : (message.or (.string failed)).toStr with
            | error e => rw [ht] at h; cases h
            | ok text =>
              rw [ht] at h
              injection h with h
              subst h
              rw [(notify_requests m text "error").1, List.append_nil]
          · injection h with h
            subst h
            rw [List.append_nil]

/-- C17: with nothing chosen in the dropdown of the engagement, `addSelectedEmployee` shows
the warning `Please select an employee` (one notification, the container being there),
records no request and leaves the list and the dropdown as they are; with an employee
chosen it sends exactly one POST to `add-employee/`, whose body carries the chosen id and
`check_conflicts: true`, any further request being a GET that refreshes a list. -/
theorem addSelectedEmployee_spec (m : Manager) (engagementId : String)
    (out outList outAvailable : FetchOutcome) (select : EmployeeSelect)
    (hselect : m.selects engagementId = some select) :
    (select.value = "" →
      (addSelectedEmployee m engagementId out outList outAvailable).thrown = none ∧
      (addSelectedEmployee m engagementId out outList outAvailable).state.editor.requests =
        m.editor.requests ∧
      (addSelectedEmployee m engagementId out outList outAvailable).state.lists = m.lists ∧
      (addSelectedEmployee m engagementId out outList outAvailable).state.selects =
        m.selects ∧
      (m.editor.hasNotificationContainer = true →
        (addSelectedEmployee m engagementId out outList
          outAvailable).state.editor.notifications =
          m.editor.notifications ++ [⟨"Please select an employee", "warning", 5000⟩])) ∧
    (select.value ≠ "" →
      (addSelectedEmployee m engagementId out outList outAvailable).thrown = none ∧
      ∃ rest,
        (addSelectedEmployee m engagementId out outList outAvailable).state.editor.requests =
          m.editor.requests ++
            ⟨"POST", m.baseUrl ++ "/engagement/" ++ engagementId ++ "/add-employee/",
              [("Content-Type", "application/json"), ("X-CSRFToken", m.csrfToken.getD "null"),
               ("X-Requested-With", "XMLHttpRequest")],
              some [("employee_id", .string select.value), ("check_conflicts", .bool true)]⟩
            :: rest ∧
        ∀ q ∈ rest, q.method = "GET") := by
  constructor
  · intro hv
    have he : select.value.isEmpty = true := by rw [hv]; decide
    have h : addSelectedEmployee m engagementId out outList outAvailable =
        ⟨m.notify "Please select an employee" "warning", none⟩ := by
      simp [addSelectedEmployee, hselect, he]
    rw [h]
    refine ⟨rfl, (notify_requests m _ _).1, rfl, rfl, ?_⟩
    intro hc
    simp [Manager.notify, showNotification, hc]
  · intro hv
    have he : select.value.isEmpty = false := (isEmpty_eq_false_iff _).mpr hv
    simp only [addSelectedEmployee, hselect, he, Bool.false_eq_true, if_false]
    cases ha : afterMutation
        (addEmployeeToEngagement m engagementId (.string select.value) true out).1
        engagementId (addEmployeeToEngagement m engagementId (.string select.value) true out).2
        "Employee added successfully" "Failed to add employee"
        (fun s => s.resetSelect engagementId) outList outAvailable with
    | error e =>
      refine ⟨rfl, [], ?_, by simp⟩
      simp only
      rw [(notify_requests _ _ _).1]
      rfl
    | ok m1 =>
      refine ⟨rfl, ?_⟩
      obtain ⟨rest, hr, hg⟩ := afterMutation_requests _ _ _ _ _
        (fun s => s.resetSelect engagementId) _ _ m1 (fun _ => rfl) ha
      refine ⟨rest, ?_, hg⟩
      simp only
      rw [hr]
      simp [addEmployeeToEngagement, Manager.send, jsonProps, Manager.postHeaders,
        Manager.getHeaders]

/-- C17, instances on the sample page: with nothing chosen one warning is shown and
nothing is sent; with employee 5 chosen and the server answering `{success: true}` one POST
goes to `/api/engagement/3/add-employee/`, followed by the two refreshing GETs. -/
theorem addSelectedEmployee_spec_witness :
    (addSelectedEmployee sampleManager "3" succeeded offline offline).state.editor.notifications
      = [⟨"Please select an employee", "warning", 5000⟩] ∧
    (addSelectedEmployee sampleManager "3" succeeded offline offline).state.editor.requests
      = [] ∧
    (addSelectedEmployee (chooseEmployee sampleManager "3" "5") "3" succeeded offline
      offline).thrown = none ∧
    ((addSelectedEmployee (chooseEmployee sampleManager "3" "5") "3" succeeded offline
      offline).state.editor.requests.map (fun q => (q.method, q.url, q.body))) =
      [("POST", "/api/engagement/3/add-employee/",
          some [("employee_id", .string "5"), ("check_conflicts", .bool true)]),
       ("GET", "/api/engagement/3/employees/", none),
       ("GET", "/api/employees/available/", none)] :=
  ⟨((addSelectedEmployee_spec sampleManager "3" succeeded offline offline _ rfl).1
      rfl).2.2.2.2 rfl,
   ((addSelectedEmployee_spec sampleManager "3" succeeded offline offline _ rfl).1 rfl).2.1,
   ((addSelectedEmployee_spec (chooseEmployee sampleManager "3" "5") "3" succeeded offline
      offline _ rfl).2 (by decide)).1,
   rfl⟩

/-! ### The modal form launchers -/

/-- C18: in the later revision the confirm callback of `AddLeave`, `AddEngagement` and
`AddClient` submits exactly when the form is valid and otherwise returns `false` without
submitting; in the earlier revision it always submits; so on a valid form both revisions
of a launcher issue the same submission (same form, same options), under the same title
and message. -/
theorem launchers_validation (valid : Bool) :
    (∀ d ∈ laterLaunchers, ((d.callback valid).submitted.isSome = valid) ∧
      (d.callback false = ⟨none, some false⟩)) ∧
    (∀ d ∈ earlierLaunchers, (d.callback valid).submitted.isSome = true ∧
      d.callback valid = d.callback true ∧ (d.callback valid).returned = none) ∧
    (∀ p ∈ laterLaunchers.zip earlierLaunchers,
      p.1.callback true = p.2.callback true ∧ p.1.title = p.2.title ∧
      p.1.message = p.2.message) ∧
    (Later.AddLeave.callback true).submitted =
      some ⟨"#leave_add", ⟨"json", false, AjaxSucceeded, AjaxFailed⟩⟩ ∧
    (Later.AddEngagement.callback true).submitted =
      some ⟨"#engagement_add", ⟨"json", false, AjaxSucceeded, AjaxFailed⟩⟩ ∧
    (Later.AddClient.callback true).submitted =
      some ⟨"#client_add", ⟨"json", false, AjaxSucceeded, AjaxFailed⟩⟩ := by
  refine ⟨?_, ?_, ?_, rfl, rfl, rfl⟩
  · intro d hd
    simp only [laterLaunchers, List.mem_cons, List.mem_singleton, List.not_mem_nil,
      or_false] at hd
    rcases hd with h | h | h <;> subst h <;> cases valid <;> exact ⟨rfl, rfl⟩
  · intro d hd
    simp only [earlierLaunchers, List.mem_cons, List.mem_singleton, List.not_mem_nil,
      or_false] at hd
    rcases hd with h | h | h <;> subst h <;> exact ⟨rfl, rfl, rfl⟩
  · intro p hp
    simp only [laterLaunchers, earlierLaunchers, List.zip_cons_cons, List.zip_nil_right,
      List.mem_cons, List.mem_singleton, List.not_mem_nil, or_false] at hp
    rcases hp with h | h | h <;> subst h <;> exact ⟨rfl, rfl, rfl⟩

/-- C18, instances: on an invalid form the later `AddLeave` returns `false` and submits
nothing while the earlier one submits `#leave_add`; on a valid form the two revisions of
`AddClient` do the same. -/
theorem launchers_validation_witness :
    Later.AddLeave.callback false = ⟨none, some false⟩ ∧
    (Earlier.AddLeave.callback false).submitted.isSome = true ∧
    Later.AddClient.callback true = Earlier.AddClient.callback true :=
  ⟨((launchers_validation false).1 Later.AddLeave (by simp [laterLaunchers])).2,
   ((launchers_validation false).2.1 Earlier.AddLeave (by simp [earlierLaunchers])).1,
   ((launchers_validation true).2.2.1 (Later.AddClient, Earlier.AddClient)
      (by simp [laterLaunchers, earlierLaunchers])).1⟩

/-! ### The dynamic branch of `createEditor` -/

theorem fieldTypes_static (k : String) (d : Descriptor) (hk : k ≠ "service_type")
    (h : fieldTypes.lookup k = some d) : d.loadDynamically = false := by
  have hmem := lookup_mem _ _ _ h
  have hall : ∀ p ∈ fieldTypes, p.1 = "service_type" ∨ p.2.loadDynamically = false := by
    simp only [fieldTypes, List.mem_cons, List.mem_singleton, List.not_mem_nil, or_false]
    intro p hp
    rcases hp with hp | hp | hp | hp | hp | hp | hp | hp | hp | hp <;> subst hp
    all_goals first
      | exact Or.inl rfl
      | exact Or.inr rfl
  rcases hall _ hmem with h1 | h1
  · exact absurd h1 hk
  · exact h1

/-- No value returned by `getInputType` has a truthy `loadDynamically`. -/
theorem getInputType_static (st : State) (fieldName modelType : Option String) :
    (getInputType st fieldName modelType).loadDynamically = false := by
  unfold getInputType
  by_cases hs : fieldName = some "service_type"
  · rw [if_pos hs]; rfl
  · rw [if_neg hs]
    cases hlook : fieldTypes.lookup (templateStr fieldName) with
    | some d =>
      refine fieldTypes_static _ d ?_ hlook
      intro hk
      apply hs
      cases fieldName with
      | none => simp [templateStr] at hk
      | some f => simp only [templateStr, Option.getD_some] at hk; rw [hk]
    | none =>
      simp only
      split_ifs <;> rfl

theorem storeForm_form (st : State) (f : EditorForm) :
    (storeForm st f).1.forms (storeForm st f).2 = f ∧
    (storeForm st f).1.requests = st.requests := by
  simp [storeForm, State.setForm]

/-- C21: no value returned by `getInputType` has a truthy `loadDynamically` (for
`service_type` the early return yields `{type: 'select', options}` over
`getServiceOptions()`), so the condition under which `createEditor` calls
`loadServiceOptions` never holds: a `createEditor` that returns has sent no request, its
input is not disabled, and when the input is a select its options are those built, one by
one and at once, from the options of the descriptor, the value of the select being that
of the selected option. -/
theorem createEditor_never_dynamic (br : Browser) (st : State) (element : ElemId)
    (config : Config) :
    (getInputType st config.fieldName config.modelType).loadDynamically = false ∧
    (config.fieldName = some "service_type" →
      getInputType st config.fieldName config.modelType =
        .descriptor ⟨"select", some (getServiceOptions st), false⟩) ∧
    callsLoadServiceOptions st config = false ∧
    (∀ p, createEditor br st element config = .ok p →
      p.1.requests = st.requests ∧
      (p.1.forms p.2).inputDisabled = false ∧
      ((p.1.forms p.2).kind = "select" →
        ∃ entries, (getInputType st config.fieldName config.modelType).options = some entries ∧
          mapAll (buildOption config.fieldName config.currentValue) entries =
            .ok (p.1.forms p.2).options ∧
          (p.1.forms p.2).inputValue = selectValue (p.1.forms p.2).options)) := by
  have hstatic := getInputType_static st config.fieldName config.modelType
  refine ⟨hstatic, ?_, ?_, ?_⟩
  · intro hf
    simp [getInputType, hf]
  · simp [callsLoadServiceOptions, hstatic]
  · intro p hp
    unfold createEditor at hp
    simp only [hstatic, Bool.false_and, Bool.false_eq_true, if_false] at hp
    split_ifs at hp with h1 h2 h3
    · injection hp with hp
      subst hp
      refine ⟨(storeForm_form _ _).2, by rw [(storeForm_form _ _).1], ?_⟩
      rw [(storeForm_form _ _).1]
      intro hk
      simp only at hk
      exact absurd hk (by decide)
    · cases hopt : (getInputType st config.fieldName config.modelType).options with
      | none => rw [hopt] at hp; cases hp
      | some entries =>
        rw [hopt] at hp
        simp only at hp
        cases hm : mapAll (buildOption config.fieldName config.currentValue) entries with
        | error e => rw [hm] at hp; cases hp
        | ok opts =>
          rw [hm] at hp
          injection hp with hp
          subst hp
          refine ⟨(storeForm_form _ _).2, by rw [(storeForm_form _ _).1], ?_⟩
          rw [(storeForm_form _ _).1]
          intro _
          exact ⟨entries, rfl, hm, rfl⟩
    · injection hp with hp
      subst hp
      refine ⟨(storeForm_form _ _).2, by rw [(storeForm_form _ _).1], ?_⟩
      rw [(storeForm_form _ _).1]
      intro hk
      simp only at hk
      exact absurd hk (by decide)
    · injection hp with hp
      subst hp
      refine ⟨(storeForm_form _ _).2, by rw [(storeForm_form _ _).1], ?_⟩
      rw [(storeForm_form _ _).1]
      intro hk
      simp only at hk
      exact absurd hk (by decide)

/-- C21, an instance: the editor made for a `service_type` field of the sample editor,
whose cache is still `null`, sends nothing, is enabled, and holds the four built-in
options with `Code Review` selected. -/
theorem createEditor_never_dynamic_witness :
    callsLoadServiceOptions sampleEditor
      ⟨some "engagement", some "3", some "service_type", "Code Review"⟩ = false ∧
    createEditor sampleBrowser sampleEditor 0
      ⟨some "engagement", some "3", some "service_type", "Code Review"⟩ =
      .ok (storeForm sampleEditor
        ⟨⟨some "engagement", some "3", some "service_type", "Code Review"⟩, 0, "select",
          [⟨"1", "Penetration Testing", false⟩, ⟨"2", "Vulnerability Assessment", false⟩,
           ⟨"3", "Code Review", true⟩, ⟨"4", "Security Audit", false⟩],
          false, "3", "Save", false⟩) ∧
    (storeForm sampleEditor
        ⟨⟨some "engagement", some "3", some "service_type", "Code Review"⟩, 0, "select",
          [⟨"1", "Penetration Testing", false⟩, ⟨"2", "Vulnerability Assessment", false⟩,
           ⟨"3", "Code Review", true⟩, ⟨"4", "Security Audit", false⟩],
          false, "3", "Save", false⟩).1.requests = sampleEditor.requests :=
  ⟨(createEditor_never_dynamic sampleBrowser sampleEditor 0
      ⟨some "engagement", some "3", some "service_type", "Code Review"⟩).2.2.1,
   rfl,
   ((createEditor_never_dynamic sampleBrowser sampleEditor 0
      ⟨some "engagement", some "3", some "service_type", "Code Review"⟩).2.2.2 _ rfl).1⟩

end Calendarinho
